import Mathlib

/-!
Verification of the ta-knox-webapp document knowledge / question-answering
engine against its natural-language specification.

The Python sources are shallowly embedded:

* `tenders/services/sharepoint_knowledge_service.py`
  (`SharePointKnowledgeService`): knowledge-base builder, categorizer,
  inverted search index, search, cache.
* `tenders/services/question_analyzer.py` (`QuestionAnalyzer`).
* `tenders/services/enhanced_ask_ai_system.py`
  (`_categorize_document`, `_calculate_confidence`).
* `tenders/services/enhanced_ai_responder.py` (`_extract_confidence`).
* `tenders/services/rfi_generator.py` (`IntelligentRFIGenerator`).
* `tenders/services/enhanced_mapper.py` (`EnhancedAIAnalysisMapper`).

Texts manipulated character-by-character are embedded as `List Char`;
Python dicts appear as insertion-ordered association lists.  Python's
dynamically typed analysis dictionaries are embedded as the inductive
type `PyVal`.  Fallible code (Python statements that can raise) returns
`Except Unit _`.
-/

/-! ## Python string primitives -/

/-- The whitespace set used by Python's `str.strip()` / `str.split()`
(space, tab, newline, carriage return, vertical tab, form feed). -/
def pyIsSpace (c : Char) : Bool :=
  c = ' ' || c = '\t' || c = '\n' || c = '\r' ||
  c = Char.ofNat 11 || c = Char.ofNat 12

/-- Python `str.strip()`: drop leading and trailing whitespace. -/
def pyStrip (s : List Char) : List Char :=
  ((s.dropWhile pyIsSpace).reverse.dropWhile pyIsSpace).reverse

/-- Worker for `pySplitWs`; `acc` holds the reversed current word. -/
def wordsAux : List Char → List Char → List (List Char)
  | [], acc => if acc.isEmpty then [] else [acc.reverse]
  | c :: rest, acc =>
    if pyIsSpace c then
      if acc.isEmpty then wordsAux rest [] else acc.reverse :: wordsAux rest []
    else
      wordsAux rest (c :: acc)

/-- Python `str.split()` with no argument: split on whitespace runs,
dropping empty pieces. -/
def pySplitWs (s : List Char) : List (List Char) :=
  wordsAux s []

/-- Python `str.lower()` on one character (ASCII letters; the repository's
keyword and token comparisons are all ASCII). -/
def pyCharLower (c : Char) : Char :=
  if 65 ≤ c.toNat ∧ c.toNat ≤ 90 then Char.ofNat (c.toNat + 32) else c

/-- Python `str.lower()` on a text. -/
def pyLower (s : List Char) : List Char :=
  s.map pyCharLower

/-- Python `str.upper()` on one character (ASCII). -/
def pyCharUpper (c : Char) : Char :=
  if 97 ≤ c.toNat ∧ c.toNat ≤ 122 then Char.ofNat (c.toNat - 32) else c

/-- Python `str.upper()` on a string. -/
def pyUpper (s : String) : String :=
  ⟨s.data.map pyCharUpper⟩

/-- Contiguous-subsequence test on lists (`sub` occurs inside `l`). -/
def listContainsSeq {α : Type} [DecidableEq α] (sub : List α) : List α → Bool
  | [] => sub.isEmpty
  | a :: rest => List.isPrefixOf sub (a :: rest) || listContainsSeq sub rest

/-- Python `sub in s` for strings: contiguous-substring test. -/
def pyInStr (sub s : String) : Bool :=
  listContainsSeq sub.data s.data

/-- Association-list lookup (Python `dict` access by key).  First match
wins; the lists we build never carry duplicate keys. -/
def alookup {α β : Type} [DecidableEq α] : List (α × β) → α → Option β
  | [], _ => none
  | (k, v) :: rest, key => if k = key then some v else alookup rest key

/-- Association-list insert-or-overwrite (`d[k] = v` on a Python dict):
an existing key keeps its position, a new key is appended. -/
def dictSet {α β : Type} [DecidableEq α] : List (α × β) → α → β → List (α × β)
  | [], key, v => [(key, v)]
  | (k, w) :: rest, key, v =>
    if k = key then (k, v) :: rest else (k, w) :: dictSet rest key v

/-! ## SharePoint knowledge service
(`tenders/services/sharepoint_knowledge_service.py`)

`SharePointKnowledgeService.build_project_knowledge_base` lists the
project's folder, then per document downloads bytes and extracts text.
The folder store, `download_document_content` and
`DocumentParser.extract_text` are the external / collaborator side of
the build; their combined outcome for one document is embedded as
`DocOutcome`: an exception while handling the document (`err`), a falsy
downloaded content (`noContent`), or an extracted text (`text`). -/

inductive DocOutcome : Type
  | err : DocOutcome
  | noContent : DocOutcome
  | text : List Char → DocOutcome
deriving DecidableEq

/-- One entry of the folder listing together with the outcome the remote
store / parser produce for it. -/
structure DocInput : Type where
  name : String
  mimeType : String
  path : String
  outcome : DocOutcome
deriving DecidableEq

/-- One element of a `documents_by_category` bucket. -/
structure CategoryEntry : Type where
  name : String
  content : List Char
  path : String
  size : Nat
  type : String
deriving DecidableEq

/-- The `processing_summary` sub-dict of a knowledge base. -/
structure ProcessingSummary : Type where
  totalDocuments : Nat
  processedSuccessfully : Nat
  processingErrors : Nat
  totalContentLength : Nat
  documentTypes : List (String × Nat)
deriving DecidableEq

/-- The `project_info` sub-dict. -/
structure ProjectInfo : Type where
  id : Nat
  name : String
  location : String
  reference : String
  sharepointUrl : String
deriving DecidableEq

/-- The knowledge-base aggregate built by
`build_project_knowledge_base`. -/
structure KnowledgeBase : Type where
  projectInfo : ProjectInfo
  documentsByCategory : List (String × List CategoryEntry)
  documentContents : List (String × List Char)
  searchIndex : List (List Char × List String)
  summary : ProcessingSummary
deriving DecidableEq

/-- `SharePointKnowledgeService._categorize_document`: filename-pattern
categories, checked in source order, default `general`. -/
def categorizeDocumentSP (docName : String) : String :=
  let n := ⟨pyLower docName.data⟩
  if ["drawing", "plan", "dwg", "pdf"].any (fun t => pyInStr t n) then
    "drawings"
  else if ["spec", "specification", "technical"].any (fun t => pyInStr t n) then
    "specifications"
  else if ["contract", "terms", "conditions"].any (fun t => pyInStr t n) then
    "contracts"
  else if ["schedule", "programme", "timeline"].any (fun t => pyInStr t n) then
    "schedules"
  else if ["cost", "budget", "price", "bill"].any (fun t => pyInStr t n) then
    "commercial"
  else if ["health", "safety", "risk"].any (fun t => pyInStr t n) then
    "health_safety"
  else
    "general"

/-- Register one word for one document in the inverted index: create the
bucket when absent, append the name when not already present
(`search_index[word].append(doc_name)` guarded by membership). -/
def indexAdd : List (List Char × List String) → List Char → String →
    List (List Char × List String)
  | [], w, n => [(w, [n])]
  | (k, l) :: rest, w, n =>
    if k = w then (k, if n ∈ l then l else l ++ [n]) :: rest
    else (k, l) :: indexAdd rest w n

/-- `SharePointKnowledgeService._add_to_search_index`: split the
lowercased content on whitespace and register every word of length > 3
against the document name. -/
def addToSearchIndex (searchIndex : List (List Char × List String))
    (docName : String) (content : List Char) :
    List (List Char × List String) :=
  (pySplitWs (pyLower content)).foldl
    (fun idx w => if 3 < w.length then indexAdd idx w docName else idx)
    searchIndex

/-- Python `mime_type.split('/')[-1]` used for the `document_types`
histogram key. -/
def mimeLastPart (mime : String) : String :=
  match (mime.data.splitOn '/').getLast? with
  | some l => ⟨l⟩
  | none => ""

/-- One iteration of the document loop in
`build_project_knowledge_base`.  An exception anywhere in the iteration
increments `processing_errors`; falsy content or text of stripped length
≤ 50 leaves the knowledge base untouched; otherwise the document is
accepted: category bucket, full content, search index and the success
counters are updated. -/
def processDocument (kb : KnowledgeBase) (doc : DocInput) : KnowledgeBase :=
  match doc.outcome with
  | .err =>
    { kb with summary :=
      { kb.summary with processingErrors := kb.summary.processingErrors + 1 } }
  | .noContent => kb
  | .text t =>
    if t ≠ [] ∧ 50 < (pyStrip t).length then
      let cat := categorizeDocumentSP doc.name
      let entry : CategoryEntry :=
        { name := doc.name, content := t.take 8000, path := doc.path,
          size := t.length, type := doc.mimeType }
      let buckets :=
        match alookup kb.documentsByCategory cat with
        | some l => dictSet kb.documentsByCategory cat (l ++ [entry])
        | none => kb.documentsByCategory ++ [(cat, [entry])]
      let docType := mimeLastPart doc.mimeType
      let newCount := ((alookup kb.summary.documentTypes docType).getD 0) + 1
      { kb with
        documentsByCategory := buckets
        documentContents := dictSet kb.documentContents doc.name t
        searchIndex := addToSearchIndex kb.searchIndex doc.name t
        summary :=
        { kb.summary with
          processedSuccessfully := kb.summary.processedSuccessfully + 1
          totalContentLength := kb.summary.totalContentLength + t.length
          documentTypes := dictSet kb.summary.documentTypes docType newCount } }
    else
      kb

/-- The freshly initialized knowledge base of a build run. -/
def initialKB (pi : ProjectInfo) (total : Nat) : KnowledgeBase :=
  { projectInfo := pi
    documentsByCategory := []
    documentContents := []
    searchIndex := []
    summary :=
    { totalDocuments := total, processedSuccessfully := 0,
      processingErrors := 0, totalContentLength := 0, documentTypes := [] } }

/-- The cache-free core of `build_project_knowledge_base`: raise
(`ValueError`) when the folder listing is empty, otherwise process the
first 50 listed documents in listing order. -/
def buildKnowledgeBase (pi : ProjectInfo) (docs : List DocInput) :
    Except Unit KnowledgeBase :=
  if docs.isEmpty then .error ()
  else .ok ((docs.take 50).foldl processDocument (initialKB pi docs.length))

/-- Add every element of `l` that is not already present (a Python
`set.update`; the embedding realizes the unordered set as a
duplicate-free list in first-insertion order — CPython iterates a `set`
in an unspecified order). -/
def setUpdate (acc : List String) (l : List String) : List String :=
  l.foldl (fun a d => if d ∈ a then a else a ++ [d]) acc

/-- `SharePointKnowledgeService.search_knowledge_base`: union the index
buckets of the lowercased query terms. -/
def searchKnowledgeBase (kb : KnowledgeBase) (queryTerms : List String) :
    List String :=
  queryTerms.foldl
    (fun acc term =>
      match alookup kb.searchIndex (pyLower term.data) with
      | some l => setUpdate acc l
      | none => acc)
    []

/-- The cache-miss path of `build_project_knowledge_base`: one folder
listing, one download attempt per processed document, and a cache write
on success. -/
def buildFresh (cache : List (Nat × KnowledgeBase)) (pi : ProjectInfo)
    (docs : List DocInput) :
    Except Unit KnowledgeBase × List (Nat × KnowledgeBase) × Nat × Nat :=
  match buildKnowledgeBase pi docs with
  | .error e => (.error e, cache, 1, 0)
  | .ok kb => (.ok kb, dictSet cache pi.id kb, 1, (docs.take 50).length)

/-- `build_project_knowledge_base` including its cache interaction.
State: the Django cache restricted to the `project_knowledge_{id}` keys,
as a map from project id to knowledge base (`KNOWLEDGE_CACHE_TIMEOUT`
expiry is not modelled; the idempotence claim assumes no expiry).
Returns the build outcome, the new cache, the number of folder listings
performed and the number of document download calls performed. -/
def buildProjectKnowledgeBase (cache : List (Nat × KnowledgeBase))
    (pi : ProjectInfo) (docs : List DocInput) (forceRefresh : Bool) :
    Except Unit KnowledgeBase × List (Nat × KnowledgeBase) × Nat × Nat :=
  if forceRefresh = false then
    match alookup cache pi.id with
    | some kb => (.ok kb, cache, 0, 0)
    | none => buildFresh cache pi docs
  else buildFresh cache pi docs

/-! ## Question analyzer (`tenders/services/question_analyzer.py`) -/

/-- The `category_keywords` table of `QuestionAnalyzer`, in declaration
order. -/
def categoryKeywords : List (String × List String) :=
  [("technical",
    ["technical", "specification", "material", "equipment", "system", "method"]),
   ("commercial", ["cost", "price", "budget", "payment", "value", "tender", "bid"]),
   ("programme",
    ["schedule", "timeline", "duration", "milestone", "date", "completion"]),
   ("drawings", ["drawing", "plan", "layout", "design", "detail", "section"]),
   ("contracts",
    ["contract", "terms", "conditions", "clause", "liability", "insurance"]),
   ("health_safety", ["safety", "health", "risk", "hazard", "protection", "welfare"]),
   ("scope", ["scope", "work", "inclusion", "exclusion", "boundary", "responsibility"]),
   ("quality", ["quality", "standard", "compliance", "testing", "inspection"])]

/-- The `complexity_indicators` table, in declaration order. -/
def complexityIndicators : List (String × List String) :=
  [("simple", ["what is", "where", "when", "who"]),
   ("moderate", ["how", "why", "explain", "describe"]),
   ("complex", ["analyze", "compare", "evaluate", "assess", "recommend"])]

/-- Python's `\w` word-character class restricted to ASCII (letters,
digits, underscore), as matched by `re.findall(r'\b\w+\b', ...)` on the
repository's ASCII questions. -/
def pyIsWordChar (c : Char) : Bool :=
  c.isAlpha || c.isDigit || c = '_'

/-- Worker collecting maximal word-character runs (the matches of
`re.findall(r'\b\w+\b', s)`). -/
def wordRunsAux : List Char → List Char → List (List Char)
  | [], acc => if acc.isEmpty then [] else [acc.reverse]
  | c :: rest, acc =>
    if pyIsWordChar c then wordRunsAux rest (c :: acc)
    else if acc.isEmpty then wordRunsAux rest [] else acc.reverse :: wordRunsAux rest []

/-- `re.findall(r'\b\w+\b', s)`: the maximal word-character runs of `s`. -/
def wordRuns (s : List Char) : List String :=
  (wordRunsAux s []).map (fun w => ⟨w⟩)

/-- The `stop_words` set of `QuestionAnalyzer._extract_key_terms`. -/
def analyzerStopWords : List String :=
  ["the", "is", "are", "what", "where", "when", "how", "why", "can", "will",
   "would", "should"]

/-- `QuestionAnalyzer._extract_key_terms`: word tokens of the lowercased
question, keeping those of length > 3 outside the stop-word set, capped
at 10. -/
def extractKeyTerms (question : String) : List String :=
  ((wordRuns (pyLower question.data)).filter
    (fun w => 3 < w.length && !(analyzerStopWords.contains w))).take 10

/-- `QuestionAnalyzer._classify_question_type` (argument already
lowercased by the caller). -/
def classifyQuestionType (question : String) : String :=
  if ["what", "define", "explain"].any (fun w => pyInStr w question) then
    "informational"
  else if ["how much", "cost", "price"].any (fun w => pyInStr w question) then
    "financial"
  else if ["when", "schedule", "timeline"].any (fun w => pyInStr w question) then
    "temporal"
  else if ["where", "location", "site"].any (fun w => pyInStr w question) then
    "spatial"
  else if ["how", "process", "method"].any (fun w => pyInStr w question) then
    "procedural"
  else
    "general"

/-- The result dict of `QuestionAnalyzer.analyze_question`. -/
structure QuestionAnalysis : Type where
  relevantCategories : List String
  complexity : String
  keyTerms : List String
  questionType : String
  requiresCrossReference : Bool
deriving DecidableEq

/-- `QuestionAnalyzer.analyze_question`. -/
def analyzeQuestion (question : String) : QuestionAnalysis :=
  let questionLower : String := ⟨pyLower question.data⟩
  let cats :=
    (categoryKeywords.filter
      (fun p => p.2.any (fun k => pyInStr k questionLower))).map Prod.fst
  let relevantCategories :=
    if cats.isEmpty then ["general", "technical", "commercial"] else cats
  let complexity :=
    match complexityIndicators.find?
        (fun p => p.2.any (fun k => pyInStr k questionLower)) with
    | some p => p.1
    | none => "simple"
  { relevantCategories := relevantCategories
    complexity := complexity
    keyTerms := extractKeyTerms question
    questionType := classifyQuestionType questionLower
    requiresCrossReference := 1 < relevantCategories.length }

/-! ## Enhanced ask-AI system
(`tenders/services/enhanced_ask_ai_system.py`) -/

/-- The category/keyword taxonomy of
`EnhancedDocumentQuestionAnswerer._categorize_document`, in declaration
order. -/
def aiCategories : List (String × List String) :=
  [("CONTRACT", ["contract", "agreement", "terms", "conditions", "jct", "nec"]),
   ("DRAWINGS", ["drawing", "plan", "elevation", "section", "detail", "dwg"]),
   ("SPECIFICATIONS",
    ["specification", "spec", "technical", "standard", "requirement"]),
   ("SCHEDULE", ["schedule", "programme", "timeline", "dates", "milestones"]),
   ("PRICING",
    ["pricing", "rates", "cost", "estimate", "budget", "bill of quantities", "boq"]),
   ("HEALTH_SAFETY",
    ["health", "safety", "cdm", "risk assessment", "method statement"]),
   ("ENVIRONMENTAL",
    ["environmental", "sustainability", "breeam", "carbon", "energy"]),
   ("TENDER_DOCS", ["tender", "invitation", "itt", "itq", "rfq", "proposal"]),
   ("STRUCTURAL", ["structural", "foundation", "concrete", "steel", "load"]),
   ("MEP", ["mechanical", "electrical", "plumbing", "hvac", "services", "m&e"]),
   ("PLANNING", ["planning", "permission", "consent", "application", "approved"]),
   ("SURVEYS", ["survey", "investigation", "report", "assessment", "condition"]),
   ("CORRESPONDENCE", ["email", "letter", "memo", "correspondence", "meeting"])]

/-- `EnhancedDocumentQuestionAnswerer._categorize_document`: first
category whose keyword list hits the lowercased filename; otherwise the
first category with at least two keywords present in the lowercased
content; otherwise `OTHER`. -/
def categorizeDocumentAI (filename content : String) : String :=
  let filenameLower : String := ⟨pyLower filename.data⟩
  let contentLower : String := ⟨pyLower content.data⟩
  match aiCategories.find?
      (fun p => p.2.any (fun k => pyInStr k filenameLower)) with
  | some p => p.1
  | none =>
    match aiCategories.find?
        (fun p => 2 ≤ p.2.countP (fun k => pyInStr k contentLower)) with
    | some p => p.1
    | none => "OTHER"

/-- Match between `lo` and `hi` repetitions of characters satisfying `p`
at the head of the text; returns every possible remainder (the
backtracking alternatives of a regex `p{lo,hi}`). -/
def matchReps (p : Char → Bool) : Nat → Nat → List Char → List (List Char)
  | lo, hi, l =>
    (if lo = 0 then [l] else []) ++
    match hi, l with
    | 0, _ => []
    | _ + 1, [] => []
    | hi' + 1, c :: rest => if p c then matchReps p (lo - 1) hi' rest else []

/-- A date separator (slash or hyphen) of the date regex. -/
def isDateSep (c : Char) : Bool :=
  c = '/' || c = '-'

/-- Match the date regex (1-2 digits, separator, 1-2 digits, separator,
2-4 digits) at the start of the text. -/
def datePatternAt (l : List Char) : Bool :=
  (matchReps Char.isDigit 1 2 l).any fun r1 =>
    match r1 with
    | s1 :: r2 =>
      isDateSep s1 &&
      ((matchReps Char.isDigit 1 2 r2).any fun r3 =>
        match r3 with
        | s2 :: r4 => isDateSep s2 && !(matchReps Char.isDigit 2 4 r4).isEmpty
        | [] => false)
    | [] => false

/-- The `re.search` of the date regex: the pattern of 1-2 digits, a
slash-or-hyphen separator, 1-2 digits, a separator and 2-4 digits
matches somewhere in the text. -/
def hasDatePattern (l : List Char) : Bool :=
  l.tails.any datePatternAt

/-- `re.search(r'Â£[\d,]+', text)` — the source file holds the pound
sign in mojibake form, so the literal is the two characters U+00C2 and
U+00A3 followed by one or more digits or commas. -/
def hasCurrencyPattern (l : List Char) : Bool :=
  l.tails.any fun t =>
    match t with
    | c1 :: c2 :: c3 :: _ =>
      c1 = Char.ofNat 194 && c2 = Char.ofNat 163 &&
      (c3.isDigit || c3 = ',')
    | _ => false

/-- `EnhancedDocumentQuestionAnswerer._calculate_confidence`: base 50,
+10 for a date-like pattern, +15 for a currency-like pattern, +10 for
length over 2000, capped at 95.  The Python floats involved are exact
small integers, embedded as `Nat`. -/
def calculateConfidence (text : List Char) : Nat :=
  let base := 50
  let base := if hasDatePattern text then base + 10 else base
  let base := if hasCurrencyPattern text then base + 15 else base
  let base := if 2000 < text.length then base + 10 else base
  min base 95

/-- `EnhancedAIResponder._extract_confidence`
(`tenders/services/enhanced_ai_responder.py`): the explicit integer
after a `CONFIDENCE` marker when present, else 75.  The marker search is
abstracted as the optional matched integer. -/
def extractConfidence (explicitMarker : Option Nat) : Nat :=
  match explicitMarker with
  | some n => n
  | none => 75

/-! ## RFI generator (`tenders/services/rfi_generator.py`) -/

/-- One candidate RFI dict as produced by the Claude parse or the
fallback list.  `category`, `priority` and `question` are the mandatory
keys; the remaining keys may be absent (`_create_rfi_items` reads them
with `.get` defaults). -/
structure RFIData : Type where
  category : String
  priority : String
  question : String
  context : Option String := none
  documentReference : Option String := none
  locationInDocument : Option String := none
  pricingImpact : Option String := none
  riskIfUnresolved : Option String := none
deriving DecidableEq

/-- A persisted `RFIItem` row, restricted to the fields the generator
writes.  The concrete `tenders/models.py` is not present in the tree
(only `modelsbackup.py` is); the row shape follows the fields
`_create_rfi_items` passes to `RFIItem.objects.create`. -/
structure RFIRecord : Type where
  analysisId : Nat
  category : String
  priority : String
  question : String
  context : String
  documentReference : String
  locationInDocument : String
  pricingImpact : String
  riskIfUnresolved : String
  createdBy : String
  status : String
deriving DecidableEq

/-- The slice of a `TenderAnalysis` the modelled generator paths read:
its identity and the `project_overview` text driving the
live-environment fallback RFI. -/
structure AnalysisInput : Type where
  analysisId : Nat
  projectOverview : String
deriving DecidableEq

/-- The result dict of `generate_comprehensive_rfis`.  The success
branch's per-category summary is keyed here by the stored category code:
`get_category_display` lives in the absent `tenders/models.py` and is
modelled as the identity on the stored code. -/
structure RFIResult : Type where
  success : Bool
  message : String
  rfiCount : Nat
  categories : List (String × Nat)
deriving DecidableEq

/-- The five `standard_rfis` of `_generate_rfis_with_fallback`. -/
def standardRfis : List RFIData :=
  [{ category := "PROGRAMME", priority := "CRITICAL",
     question := "What is the confirmed start on site date and required completion date?",
     context := some "Essential for programme planning and resource allocation",
     pricingImpact := some "HIGH",
     riskIfUnresolved := some "Cannot price time-related costs or assess programme risk" },
   { category := "TECHNICAL", priority := "HIGH",
     question := "Please provide complete technical specifications for all major building elements",
     context := some "Current specifications appear incomplete for accurate material pricing",
     pricingImpact := some "HIGH",
     riskIfUnresolved := some "May require provisional sums for unspecified elements" },
   { category := "SCOPE", priority := "CRITICAL",
     question := "Please clarify the exact scope boundaries and any exclusions from contractor works",
     context := some "Scope boundaries are unclear which could lead to disputes",
     pricingImpact := some "HIGH",
     riskIfUnresolved := some "Risk of pricing gaps or overlaps with other contractors" },
   { category := "COMMERCIAL", priority := "HIGH",
     question := "Please confirm payment terms, retention percentages and milestone definitions",
     context := some "Commercial terms affect cash flow and pricing strategy",
     pricingImpact := some "MEDIUM",
     riskIfUnresolved := some "Cannot assess commercial risk or price accordingly" },
   { category := "ACCESS", priority := "HIGH",
     question := "Please provide site access arrangements, working hours and any restrictions",
     context := some "Access limitations affect logistics and programme costs",
     pricingImpact := some "MEDIUM",
     riskIfUnresolved := some "May underestimate logistics and programme costs" }]

/-- The context-specific coordination RFI appended when the analysis
overview mentions a live environment. -/
def coordinationRfi : RFIData :=
  { category := "COORDINATION", priority := "HIGH",
    question := "Please detail coordination requirements with ongoing operations and other contractors",
    context := some "Live environment requires careful coordination planning",
    pricingImpact := some "HIGH",
    riskIfUnresolved := some "Cannot price coordination and protection measures" }

/-- `IntelligentRFIGenerator._generate_rfis_with_fallback`: the standard
set, plus the coordination RFI when `'live environment'` occurs in the
lowercased overview, capped at 12. -/
def generateRfisWithFallback (analysis : AnalysisInput) : List RFIData :=
  let rfis := standardRfis ++
    (if pyInStr "live environment" ⟨pyLower analysis.projectOverview.data⟩ then
      [coordinationRfi]
    else [])
  rfis.take 12

/-- `IntelligentRFIGenerator._analyze_and_generate_rfis`.  The Claude
path (external model call, JSON/text parse, `_clean_rfi_data`) is the
out-of-scope generative collaborator and is abstracted as
`claudeOutcome`: `some rfis` is a successful Claude generation,
`none` means Claude is unavailable or its call failed, which falls back
to the deterministic rule-based set. -/
def analyzeAndGenerateRfis (analysis : AnalysisInput)
    (claudeOutcome : Option (List RFIData)) : List RFIData :=
  match claudeOutcome with
  | some rfis => rfis
  | none => generateRfisWithFallback analysis

/-- One `RFIItem.objects.create` call of `_create_rfi_items`.  Python's
`created_by or 'System Generated'` treats both `None` and the empty
string as absent. -/
def rfiRecordOf (analysis : AnalysisInput) (createdBy : Option String)
    (rfi : RFIData) : RFIRecord :=
  { analysisId := analysis.analysisId
    category := rfi.category
    priority := rfi.priority
    question := rfi.question
    context := rfi.context.getD ""
    documentReference := rfi.documentReference.getD ""
    locationInDocument := rfi.locationInDocument.getD ""
    pricingImpact := rfi.pricingImpact.getD "MEDIUM"
    riskIfUnresolved := rfi.riskIfUnresolved.getD ""
    createdBy :=
      match createdBy with
      | some s => if s.isEmpty then "System Generated" else s
      | none => "System Generated"
    status := "PENDING" }

/-- `IntelligentRFIGenerator._summarize_by_category` over the created
items (display names modelled by the stored codes). -/
def summarizeByCategory (items : List RFIRecord) : List (String × Nat) :=
  items.foldl
    (fun acc item =>
      dictSet acc item.category ((alookup acc item.category).getD 0 + 1))
    []

/-- `IntelligentRFIGenerator.generate_comprehensive_rfis` acting on the
stored `RFIItem` table: a reported no-op when records for the analysis
already exist, otherwise generation plus insertion of the new rows. -/
def generateComprehensiveRfis (db : List RFIRecord) (analysis : AnalysisInput)
    (claudeOutcome : Option (List RFIData)) (createdBy : Option String) :
    List RFIRecord × RFIResult :=
  let existing := (db.filter (fun r => r.analysisId = analysis.analysisId)).length
  if 0 < existing then
    (db,
     { success := false
       message := "RFIs already generated for this project (" ++
         toString existing ++ " items exist)"
       rfiCount := existing
       categories := [] })
  else
    let created :=
      (analyzeAndGenerateRfis analysis claudeOutcome).map
        (rfiRecordOf analysis createdBy)
    (db ++ created,
     { success := true
       message := "Successfully generated " ++ toString created.length ++
         " RFI items"
       rfiCount := created.length
       categories := summarizeByCategory created })

/-- `IntelligentRFIGenerator.regenerate_rfis`: delete the analysis's
existing rows, then generate afresh. -/
def regenerateRfis (db : List RFIRecord) (analysis : AnalysisInput)
    (claudeOutcome : Option (List RFIData)) (createdBy : Option String) :
    List RFIRecord × RFIResult :=
  generateComprehensiveRfis
    (db.filter (fun r => ¬ r.analysisId = analysis.analysisId))
    analysis claudeOutcome createdBy

/-! ## Enhanced AI analysis mapper
(`tenders/services/enhanced_mapper.py`) -/

/-- A dynamically typed Python value inside an analysis-results
dictionary.  The numeric values the mapper meets are integer-valued
(counts, week numbers, whole-pound amounts); Python's `int`/`float`
distinction is collapsed onto `Int`, and `bool` — a subclass of `int`
for Python's `isinstance` checks — is kept separate. -/
inductive PyVal : Type
  | pynone : PyVal
  | pybool : Bool → PyVal
  | pyint : Int → PyVal
  | pystr : String → PyVal
  | pylist : List PyVal → PyVal
  | pydict : List (String × PyVal) → PyVal

/-- Python truthiness. -/
def pyTruthy : PyVal → Bool
  | .pynone => false
  | .pybool b => b
  | .pyint n => !(n == 0)
  | .pystr s => !s.isEmpty
  | .pylist l => !l.isEmpty
  | .pydict d => !d.isEmpty

/-- `d.get(k)`: `None` when absent. -/
def pyGet (raw : List (String × PyVal)) (k : String) : PyVal :=
  (alookup raw k).getD .pynone

/-- `d.get(k, default)`. -/
def pyGetD (raw : List (String × PyVal)) (k : String) (dflt : PyVal) : PyVal :=
  (alookup raw k).getD dflt

/-- `isinstance(v, str)`. -/
def pyIsStr : PyVal → Bool
  | .pystr _ => true
  | _ => false

/-- `isinstance(v, list)`. -/
def pyIsList : PyVal → Bool
  | .pylist _ => true
  | _ => false

/-- `isinstance(v, dict)`. -/
def pyIsDict : PyVal → Bool
  | .pydict _ => true
  | _ => false

/-- `isinstance(v, (int, float))` — true of Python bools as well. -/
def pyIsNum : PyVal → Bool
  | .pyint _ => true
  | .pybool _ => true
  | _ => false

/-- The integer value of a numeric `PyVal` (`int(v)` / comparison use). -/
def pyNumVal : PyVal → Int
  | .pyint n => n
  | .pybool b => if b then 1 else 0
  | _ => 0

/-! Renderer behind Python `str()` (`reprMode = false`) and `repr()`
(`reprMode = true`); `repr` only differs on strings, which it quotes.
Collection rendering approximates CPython's element spacing; no mapper
claim inspects these rendered texts. -/

mutual

/-- Python `str()` / `repr()` of one value. -/
def pyRender : Bool → PyVal → String
  | reprMode, .pystr s => if reprMode then "'" ++ s ++ "'" else s
  | _, .pynone => "None"
  | _, .pybool b => if b then "True" else "False"
  | _, .pyint n => toString n
  | _, .pylist l => "[" ++ pyRenderSeq l ++ "]"
  | _, .pydict d => "\x7b" ++ pyRenderPairs d ++ "\x7d"

def pyRenderSeq : List PyVal → String
  | [] => ""
  | [x] => pyRender true x
  | x :: xs => pyRender true x ++ ", " ++ pyRenderSeq xs

def pyRenderPairs : List (String × PyVal) → String
  | [] => ""
  | [(k, v)] => "'" ++ k ++ "': " ++ pyRender true v
  | (k, v) :: xs => "'" ++ k ++ "': " ++ pyRender true v ++ ", " ++ pyRenderPairs xs

end

/-- Python `str(v)` as used by the mapper's f-strings. -/
def pyToStr (v : PyVal) : String :=
  pyRender false v

/-- `sep.join(parts)`: raises `TypeError` unless every element is a
string. -/
def pyJoinStrs (sep : String) (parts : List PyVal) : Except Unit String :=
  if parts.all pyIsStr then .ok (String.intercalate sep (parts.map pyToStr))
  else .error ()

/-- Insert thousands separators into a reversed digit sequence. -/
def groupRev : List Char → List Char
  | c1 :: c2 :: c3 :: c4 :: rest => c1 :: c2 :: c3 :: ',' :: groupRev (c4 :: rest)
  | l => l

/-- Python `format(v, ',')` on the numeric values the mapper guards with
`isinstance(v, (int, float))`. -/
def pyFormatComma (v : PyVal) : String :=
  match v with
  | .pyint n =>
    let grouped : String := ⟨(groupRev (toString n.natAbs).data.reverse).reverse⟩
    if n < 0 then "-" ++ grouped else grouped
  | .pybool b => if b then "1" else "0"
  | _ => ""

/-- The first maximal digit run of a string (`re.search(r'(\d+)', s)`). -/
def firstDigitRun : List Char → Option (List Char)
  | [] => none
  | c :: rest =>
    if c.isDigit then some (c :: rest.takeWhile Char.isDigit)
    else firstDigitRun rest

/-- Decimal value of a digit run. -/
def digitsToNat (l : List Char) : Nat :=
  l.foldl (fun a c => a * 10 + (c.toNat - 48)) 0

/-- `EnhancedAIAnalysisMapper._safe_convert_to_int`. -/
def safeConvertToInt (v : PyVal) (dflt : Int) : Int :=
  match v with
  | .pynone => dflt
  | .pybool b => if b then 1 else 0
  | .pyint n => n
  | .pystr s =>
    if s.isEmpty then dflt
    else
      match firstDigitRun s.data with
      | some ds => (digitsToNat ds : Int)
      | none => dflt
  | _ => dflt

/-- The slice of the Django project object the mapper reads. -/
structure MapperProject : Type where
  name : String
deriving DecidableEq

/-- Step 1 parts: `overview_parts`. -/
def overviewParts (raw : List (String × PyVal)) : List PyVal :=
  (if pyTruthy (pyGet raw "project_overview") then [pyGet raw "project_overview"]
   else []) ++
  (if pyTruthy (pyGet raw "project_name") then
    [.pystr ("Project: " ++ pyToStr (pyGet raw "project_name"))] else []) ++
  (if pyTruthy (pyGet raw "project_location") then
    [.pystr ("Location: " ++ pyToStr (pyGet raw "project_location"))] else []) ++
  (if pyTruthy (pyGet raw "client_details") then
    [.pystr ("Client: " ++ pyToStr (pyGet raw "client_details"))] else []) ++
  (if pyTruthy (pyGet raw "project_type") then
    [.pystr ("Type: " ++ pyToStr (pyGet raw "project_type"))] else [])

/-- Step 1: `project_overview`. -/
def projectOverviewField (raw : List (String × PyVal)) (p : MapperProject) :
    Except Unit PyVal :=
  let parts := overviewParts raw
  if parts.isEmpty then .ok (.pystr ("AI Analysis for " ++ p.name))
  else (pyJoinStrs "\n\n" parts).map .pystr

/-- Step 2: `scope_of_work`. -/
def scopeField (raw : List (String × PyVal)) : Except Unit PyVal :=
  let parts :=
    (if pyTruthy (pyGet raw "scope_of_work") then [pyGet raw "scope_of_work"]
     else []) ++
    (if pyTruthy (pyGet raw "technical_specifications") then
      [.pystr ("Technical Specifications: " ++
        pyToStr (pyGet raw "technical_specifications"))] else []) ++
    (if pyTruthy (pyGet raw "coordination_requirements") then
      [.pystr ("Coordination: " ++ pyToStr (pyGet raw "coordination_requirements"))]
     else [])
  if parts.isEmpty then .ok (.pystr "Scope to be determined from document analysis")
  else (pyJoinStrs "\n\n" parts).map .pystr

/-- Step 3: `key_requirements` (pure; capped at 20). -/
def keyRequirementsField (raw : List (String × PyVal)) : PyVal :=
  let kr1 :=
    if pyTruthy (pyGet raw "key_requirements") then
      match pyGet raw "key_requirements" with
      | .pylist l => l
      | v => [.pystr (pyToStr v)]
    else []
  let kr2 :=
    if pyTruthy (pyGet raw "required_trades") then
      match pyGet raw "required_trades" with
      | .pylist l => l.map (fun t => .pystr ("Required trade: " ++ pyToStr t))
      | _ => []
    else []
  let kr3 :=
    if pyTruthy (pyGet raw "compliance_requirements") then
      match pyGet raw "compliance_requirements" with
      | .pylist l => l
      | v => [.pystr (pyToStr v)]
    else []
  let kr4 :=
    if pyTruthy (pyGet raw "quality_requirements") then
      [PyVal.pystr ("Quality: " ++ pyToStr (pyGet raw "quality_requirements"))]
    else []
  let kr5 :=
    if pyTruthy (pyGet raw "safety_requirements") then
      [PyVal.pystr ("Safety: " ++ pyToStr (pyGet raw "safety_requirements"))]
    else []
  let kr6 :=
    if pyTruthy (pyGet raw "environmental_considerations") then
      [PyVal.pystr ("Environmental: " ++
        pyToStr (pyGet raw "environmental_considerations"))]
    else []
  .pylist ((kr1 ++ kr2 ++ kr3 ++ kr4 ++ kr5 ++ kr6).take 20)

/-- Step 4: `technical_specifications`. -/
def techSpecsField (raw : List (String × PyVal)) : Except Unit PyVal :=
  let base :=
    if pyTruthy (pyGet raw "technical_specifications") then
      [pyGet raw "technical_specifications"]
    else []
  let drawings := pyGet raw "drawings_available"
  let drawingPart : Except Unit (List PyVal) :=
    if pyTruthy drawings then
      match drawings with
      | .pylist l =>
        (pyJoinStrs ", " l).map fun j => [.pystr ("Available drawings: " ++ j)]
      | .pydict d =>
        if (alookup d "drawings_available").isSome then
          match pyGet d "drawings_available" with
          | .pylist l2 =>
            (pyJoinStrs ", " l2).map fun j => [.pystr ("Available drawings: " ++ j)]
          | _ => .ok []
        else .ok []
      | _ => .ok []
    else .ok []
  drawingPart.bind fun dp =>
    let parts := base ++ dp
    if parts.isEmpty then
      .ok (.pystr "Technical specifications to be reviewed from documents")
    else (pyJoinStrs "\n\n" parts).map .pystr

/-- Step 5: `risk_assessment`. -/
def riskAssessmentField (raw : List (String × PyVal)) : Except Unit PyVal :=
  let parts :=
    (if pyTruthy (pyGet raw "risk_assessment") then [pyGet raw "risk_assessment"]
     else []) ++
    (if pyTruthy (pyGet raw "identified_risks") then
      match pyGet raw "identified_risks" with
      | .pylist l =>
        PyVal.pystr "Identified Risks:" ::
          l.map (fun r => .pystr ("• " ++ pyToStr r))
      | _ => []
    else []) ++
    (if pyTruthy (pyGet raw "site_conditions") then
      [PyVal.pystr ("Site Conditions: " ++ pyToStr (pyGet raw "site_conditions"))]
    else [])
  if parts.isEmpty then .ok (.pystr "Risk assessment pending detailed review")
  else (pyJoinStrs "\n\n" parts).map .pystr

/-- Step 6: `risk_level` — uppercase substring cascade in source order
LOW, HIGH, CRITICAL, with `MEDIUM` for non-strings and no match
(`analysis_results.get('risk_level', 'MEDIUM')`). -/
def riskLevelField (raw : List (String × PyVal)) : String :=
  match pyGetD raw "risk_level" (.pystr "MEDIUM") with
  | .pystr s =>
    let u := pyUpper s
    if pyInStr "LOW" u then "LOW"
    else if pyInStr "HIGH" u then "HIGH"
    else if pyInStr "CRITICAL" u then "HIGH"
    else "MEDIUM"
  | _ => "MEDIUM"

/-- Step 7: `timeline_analysis`. -/
def timelineField (raw : List (String × PyVal)) : Except Unit PyVal :=
  let duration := pyGet raw "project_duration_weeks"
  let parts :=
    (if pyTruthy (pyGet raw "timeline_analysis") then
      [pyGet raw "timeline_analysis"] else []) ++
    (if pyTruthy duration then
      if pyIsNum duration then
        [PyVal.pystr ("Estimated duration: " ++ pyToStr duration ++ " weeks")]
      else
        match duration with
        | .pystr s =>
          if (pyStrip s.data).isEmpty then []
          else [PyVal.pystr ("Duration: " ++ s)]
        | _ => []
    else []) ++
    (if pyTruthy (pyGet raw "critical_milestones") then
      match pyGet raw "critical_milestones" with
      | .pylist l =>
        PyVal.pystr "Critical Milestones:" ::
          l.map (fun m => .pystr ("• " ++ pyToStr m))
      | _ => []
    else [])
  if parts.isEmpty then .ok (.pystr "Timeline analysis pending programme review")
  else (pyJoinStrs "\n\n" parts).map .pystr

/-- Step 8: `budget_estimates`. -/
def budgetField (raw : List (String × PyVal)) : Except Unit PyVal :=
  let evr := pyGet raw "estimated_value_range"
  let parts :=
    (if pyTruthy (pyGet raw "budget_estimates") then
      [pyGet raw "budget_estimates"] else []) ++
    (if pyTruthy evr then
      match evr with
      | .pydict d =>
        let minVal := pyGetD d "min" (.pystr "TBD")
        let maxVal := pyGetD d "max" (.pystr "TBD")
        if pyIsNum minVal && pyIsNum maxVal then
          [PyVal.pystr ("Estimated range: £" ++ pyFormatComma minVal ++
            " - £" ++ pyFormatComma maxVal)]
        else
          [PyVal.pystr ("Estimated range: " ++ pyToStr minVal ++ " - " ++
            pyToStr maxVal)]
      | _ => []
    else [])
  if parts.isEmpty then
    .ok (.pystr "Budget estimates to be developed from quantity analysis")
  else (pyJoinStrs "\n\n" parts).map .pystr

/-- `contract_info.update(v)`: merges a dict; any truthy non-dict raises
(Python raises for the mapper's non-dict inputs; an iterable of pairs is
not a shape the analysis results use). -/
def pyDictUpdate (ci : List (String × PyVal)) (v : PyVal) :
    Except Unit (List (String × PyVal)) :=
  match v with
  | .pydict d => .ok (d.foldl (fun acc kv => dictSet acc kv.1 kv.2) ci)
  | _ => .error ()

/-- Step 9: `contract_information`. -/
def contractInfoField (raw : List (String × PyVal)) : Except Unit PyVal :=
  let step1 : Except Unit (List (String × PyVal)) :=
    if pyTruthy (pyGet raw "contract_information") then
      pyDictUpdate [] (pyGet raw "contract_information")
    else .ok []
  step1.map fun ci =>
    .pydict
      (["contract_type", "payment_terms", "insurance_requirements",
        "liquidated_damages"].foldl
        (fun acc f =>
          if pyTruthy (pyGet raw f) then dictSet acc f (pyGet raw f) else acc)
        ci)

/-- Step 10: `analysis_confidence` (`float(confidence)` embedded by its
integer value). -/
def confidenceField (raw : List (String × PyVal)) : PyVal :=
  let c := pyGetD raw "analysis_confidence" (.pyint 70)
  if pyIsNum c then .pyint (pyNumVal c) else .pyint 70

/-- Step 11: the `estimated_project_value` entry, present only when
`estimated_value_range` is a truthy dict whose `max` is a positive
number. -/
def estimatedValueSeg (raw : List (String × PyVal)) : List (String × PyVal) :=
  let evr := pyGet raw "estimated_value_range"
  if pyTruthy evr then
    match evr with
    | .pydict d =>
      let maxVal := pyGet d "max"
      if pyIsNum maxVal && 0 < pyNumVal maxVal then
        [("estimated_project_value", .pyint (pyNumVal maxVal))]
      else []
    | _ => []
  else []

/-- Python `s[:100]`. -/
def strTake100 (s : String) : String :=
  ⟨s.data.take 100⟩

/-- Step 12: the `contract_type` entry.
`analysis_results.get('contract_information', {}).get('contract_type')`
raises `AttributeError` when the stored `contract_information` is not a
dict (reachable for falsy non-dict values; truthy non-dicts already
raised at step 9). -/
def contractTypeSeg (raw : List (String × PyVal)) :
    Except Unit (List (String × PyVal)) :=
  match pyGetD raw "contract_information" (.pydict []) with
  | .pydict d =>
    if pyTruthy (pyGet d "contract_type") then
      .ok [("contract_type", .pystr (strTake100 (pyToStr (pyGet d "contract_type"))))]
    else if pyTruthy (pyGet raw "contract_type") then
      .ok [("contract_type",
            .pystr (strTake100 (pyToStr (pyGet raw "contract_type"))))]
    else .ok []
  | _ => .error ()

/-- Step 13: the `project_duration_weeks` entry, present only for a
truthy raw duration. -/
def durationSeg (raw : List (String × PyVal)) : List (String × PyVal) :=
  let duration := pyGet raw "project_duration_weeks"
  if pyTruthy duration then
    [("project_duration_weeks", .pyint (safeConvertToInt duration 26))]
  else []

/-- Step 14: `key_opportunities`. -/
def keyOppsField (raw : List (String × PyVal)) : PyVal :=
  if pyTruthy (pyGet raw "key_opportunities") then
    match pyGet raw "key_opportunities" with
    | .pylist l => .pylist l
    | v => .pylist [.pystr (pyToStr v)]
  else .pylist []

/-- `EnhancedAIAnalysisMapper.map_comprehensive_analysis`: the mapped
field dictionary in its insertion order, or a raised exception.  The
conditionally present fields are `estimated_project_value`,
`contract_type` and `project_duration_weeks`; all other fields are
always inserted. -/
def mapComprehensiveAnalysis (raw : List (String × PyVal)) (p : MapperProject) :
    Except Unit (List (String × PyVal)) :=
  (projectOverviewField raw p).bind fun ov =>
  (scopeField raw).bind fun sc =>
  (techSpecsField raw).bind fun ts =>
  (riskAssessmentField raw).bind fun ra =>
  (timelineField raw).bind fun tl =>
  (budgetField raw).bind fun bu =>
  (contractInfoField raw).bind fun ci =>
  (contractTypeSeg raw).bind fun ctSeg =>
  .ok ([("project_overview", ov),
        ("scope_of_work", sc),
        ("key_requirements", keyRequirementsField raw),
        ("technical_specifications", ts),
        ("risk_assessment", ra),
        ("risk_level", .pystr (riskLevelField raw)),
        ("timeline_analysis", tl),
        ("budget_estimates", bu),
        ("contract_information", ci),
        ("analysis_confidence", confidenceField raw)] ++
       estimatedValueSeg raw ++ ctSeg ++ durationSeg raw ++
       [("key_opportunities", keyOppsField raw)])

/-! ## Specification-side definitions

Definitions in this section follow the wording of the specification or
of the claims (ranking by match density, the two-tier categorization
cascade, the risk-level cascade) to be compared against the embedded
code; everything above follows the source. -/

/-- Membership of a document under a token in an inverted index. -/
def entryMem (idx : List (List Char × List String)) (t : List Char)
    (d : String) : Prop :=
  ∃ l, alookup idx t = some l ∧ d ∈ l

/-- The filename test of one taxonomy row: some keyword occurs in the
lowercased filename. -/
def aiFilenameHit (filename : String) (p : String × List String) : Bool :=
  p.2.any (fun k => pyInStr k ⟨pyLower filename.data⟩)

/-- The claim's content fallback test for one taxonomy row: at least two
distinct keywords of the row occur in the lowercased content. -/
def aiContentDistinctHit (content : String) (p : String × List String) : Bool :=
  2 ≤ p.2.dedup.countP (fun k => pyInStr k ⟨pyLower content.data⟩)

/-- The claim's risk-level cascade on the uppercased input text: the
substring checks in the fixed order LOW, then HIGH, then CRITICAL (the
CRITICAL branch coercing to HIGH), with MEDIUM when none hits. -/
def riskCascadeSpec (u : String) : String :=
  if pyInStr "LOW" u then "LOW"
  else if pyInStr "HIGH" u then "HIGH"
  else if pyInStr "CRITICAL" u then "HIGH"
  else "MEDIUM"

/-- Whether a query term matches a document through the inverted index. -/
def termMatches (kb : KnowledgeBase) (d : String) (t : String) : Bool :=
  match alookup kb.searchIndex (pyLower t.data) with
  | some l => d ∈ l
  | none => false

/-- The number of distinct query terms matching a document. -/
def matchCount (kb : KnowledgeBase) (queryTerms : List String) (d : String) :
    Nat :=
  queryTerms.dedup.countP (termMatches kb d)

/-- Stable insertion (descending) by a count function: an element goes
after every element of at-least-equal count. -/
def insertRanked (count : String → Nat) (x : String) : List String → List String
  | [] => [x]
  | y :: ys => if count y < count x then x :: y :: ys else y :: insertRanked count x ys

/-- The ordering the specification claims for `search`: the union of the
matching documents, sorted by descending number of distinct matching
terms, ties kept in first-seen order (a stable insertion sort of the
first-seen union). -/
def rankedByMatchDensity (kb : KnowledgeBase) (queryTerms : List String) :
    List String :=
  (searchKnowledgeBase kb queryTerms).foldr
    (insertRanked (matchCount kb queryTerms)) []

/-! ## Concrete sample inputs used by witnesses and counterexamples -/

/-- A sample project. -/
def sampleProjectInfo : ProjectInfo :=
  ⟨1, "Sample Project", "London", "REF-1", "https://sharepoint/folder"⟩

/-- A document whose extracted text is short (4 characters after
stripping). -/
def shortTextDoc : DocInput :=
  ⟨"short.txt", "text/plain", "/docs/short.txt", .text "tiny".data⟩

/-- The knowledge base built from the single short-text document. -/
def shortDocKB : KnowledgeBase :=
  (buildKnowledgeBase sampleProjectInfo [shortTextDoc]).toOption.getD
    (initialKB sampleProjectInfo 0)

/-- Text of the first substring-example document: the word `testing`
followed by a long filler word. -/
def substrTextA : List Char :=
  "testing ".data ++ List.replicate 60 'a'

/-- Text of the second substring-example document: the word
`testingmore` (containing `testing` as a proper substring) followed by
the same filler word. -/
def substrTextB : List Char :=
  "testingmore ".data ++ List.replicate 60 'a'

/-- The two-document listing of the substring example. -/
def substrDocs : List DocInput :=
  [⟨"DocA", "text/plain", "/a", .text substrTextA⟩,
   ⟨"DocB", "text/plain", "/b", .text substrTextB⟩]

/-- The knowledge base built from `substrDocs`. -/
def substrKB : KnowledgeBase :=
  (buildKnowledgeBase sampleProjectInfo substrDocs).toOption.getD
    (initialKB sampleProjectInfo 0)

/-- A knowledge base whose index lets `DocA` match one of the query
terms `cost`, `budget` and `DocB` both. -/
def searchRankKB : KnowledgeBase :=
  { initialKB sampleProjectInfo 2 with
    searchIndex := [("cost".data, ["DocA", "DocB"]), ("budget".data, ["DocB"])] }

/-- As `searchRankKB` with the match densities swapped: `DocA` matches
both terms, `DocB` one. -/
def searchRankKB2 : KnowledgeBase :=
  { initialKB sampleProjectInfo 2 with
    searchIndex := [("cost".data, ["DocA", "DocB"]), ("budget".data, ["DocA"])] }

/-- A sample tender analysis identity. -/
def sampleAnalysis : AnalysisInput :=
  ⟨7, "Refurbishment in a live environment"⟩

/-- A sample stored RFI row for `sampleAnalysis`. -/
def sampleRfiRecord : RFIRecord :=
  rfiRecordOf sampleAnalysis none coordinationRfi

/-- A sample Django project object for the mapper. -/
def sampleMapperProject : MapperProject :=
  ⟨"Sample Project"⟩

/-- The mapper's output on the empty analysis dictionary. -/
def mappedEmptySample : List (String × PyVal) :=
  (mapComprehensiveAnalysis [] sampleMapperProject).toOption.getD []

/-! ## General lemmas -/

/-- Python's per-character lowercasing is idempotent. -/
theorem pyCharLower_idem (c : Char) : pyCharLower (pyCharLower c) = pyCharLower c := by
  unfold pyCharLower
  by_cases h : 65 ≤ c.toNat ∧ c.toNat ≤ 90
  · rw [if_pos h]
    have hvalid : Nat.isValidChar (c.toNat + 32) := Or.inl (by omega)
    have hv : (Char.ofNat (c.toNat + 32)).toNat = c.toNat + 32 := by
      rw [Char.ofNat, dif_pos hvalid]
      simp [Char.ofNatAux, Char.toNat, UInt32.toNat, BitVec.toNat_ofNatLt]
    rw [if_neg (by omega)]
  · rw [if_neg h, if_neg h]

/-- A character of a lowercased text is fixed by lowercasing. -/
theorem pyCharLower_fix_of_mem_pyLower {c : Char} {s : List Char}
    (h : c ∈ pyLower s) : pyCharLower c = c := by
  obtain ⟨c', _, rfl⟩ := List.mem_map.mp h
  exact pyCharLower_idem c'

/-- Every character of every word produced by `wordsAux` comes from the
input or the accumulator. -/
theorem wordsAux_chars (s : List Char) :
    ∀ acc w, w ∈ wordsAux s acc → ∀ c ∈ w, c ∈ s ∨ c ∈ acc := by
  induction s with
  | nil =>
    intro acc w hw c hc
    unfold wordsAux at hw
    cases ha : acc.isEmpty <;> rw [ha] at hw <;> simp at hw
    subst hw
    exact Or.inr (List.mem_reverse.mp hc)
  | cons a rest ih =>
    intro acc w hw c hc
    unfold wordsAux at hw
    cases hsp : pyIsSpace a
    · rw [hsp, if_neg Bool.false_ne_true] at hw
      rcases ih (a :: acc) w hw c hc with h | h
      · exact Or.inl (List.mem_cons_of_mem a h)
      · rcases List.mem_cons.mp h with h | h
        · exact Or.inl (h ▸ List.mem_cons_self a rest)
        · exact Or.inr h
    · rw [hsp, if_pos rfl] at hw
      cases ha : acc.isEmpty
      · rw [ha, if_neg Bool.false_ne_true] at hw
        rcases List.mem_cons.mp hw with h | h
        · subst h
          exact Or.inr (List.mem_reverse.mp hc)
        · rcases ih [] w h c hc with h' | h'
          · exact Or.inl (List.mem_cons_of_mem a h')
          · simp at h'
      · rw [ha, if_pos rfl] at hw
        rcases ih [] w hw c hc with h' | h'
        · exact Or.inl (List.mem_cons_of_mem a h')
        · simp at h'

/-- Mapping a function that fixes every element is the identity. -/
theorem list_map_fix {α : Type} (f : α → α) :
    ∀ (l : List α), (∀ c ∈ l, f c = c) → l.map f = l
  | [], _ => rfl
  | a :: rest, h => by
    rw [List.map_cons, h a (List.mem_cons_self a rest),
      list_map_fix f rest (fun c hc => h c (List.mem_cons_of_mem a hc))]

/-- A word of a whitespace-split lowercased text is itself lowercase. -/
theorem pyLower_fix_of_word {w text : List Char}
    (hw : w ∈ pySplitWs (pyLower text)) : pyLower w = w := by
  have hchars : ∀ c ∈ w, c ∈ pyLower text := by
    intro c hc
    rcases wordsAux_chars (pyLower text) [] w hw c hc with h | h
    · exact h
    · simp at h
  exact list_map_fix pyCharLower w
    (fun c hc => pyCharLower_fix_of_mem_pyLower (hchars c hc))

/-- `alookup` after `dictSet` at the written key. -/
theorem alookup_dictSet_self {α β : Type} [DecidableEq α]
    (m : List (α × β)) (k : α) (v : β) : alookup (dictSet m k v) k = some v := by
  induction m with
  | nil => simp [dictSet, alookup]
  | cons p rest ih =>
    obtain ⟨k', w⟩ := p
    by_cases h : k' = k <;> simp [dictSet, alookup, h, ih]

/-- `alookup` after `dictSet` at a different key. -/
theorem alookup_dictSet_ne {α β : Type} [DecidableEq α]
    (m : List (α × β)) (k k' : α) (v : β) (h : k' ≠ k) :
    alookup (dictSet m k v) k' = alookup m k' := by
  induction m with
  | nil =>
    simp only [dictSet, alookup]
    rw [if_neg (fun hh : k = k' => h hh.symm)]
  | cons p rest ih =>
    obtain ⟨k0, w⟩ := p
    by_cases h0 : k0 = k
    · subst h0
      simp only [dictSet, if_pos rfl, alookup]
      rw [if_neg (fun hh : k0 = k' => h hh.symm), if_neg (fun hh : k0 = k' => h hh.symm)]
    · simp only [dictSet, if_neg h0, alookup]
      by_cases h1 : k0 = k'
      · rw [if_pos h1, if_pos h1]
      · rw [if_neg h1, if_neg h1]
        exact ih

/-- `alookup` is `none` exactly off the key set. -/
theorem alookup_eq_none_iff {α β : Type} [DecidableEq α]
    (m : List (α × β)) (k : α) :
    alookup m k = none ↔ k ∉ m.map Prod.fst := by
  induction m with
  | nil => simp [alookup]
  | cons p rest ih =>
    obtain ⟨k', v⟩ := p
    simp only [alookup, List.map_cons, List.mem_cons]
    by_cases h : k' = k
    · subst h
      simp
    · rw [if_neg h]
      rw [ih]
      constructor
      · intro hn hor
        rcases hor with hor | hor
        · exact h hor.symm
        · exact hn hor
      · intro hn hmem
        exact hn (Or.inr hmem)

/-- Writing a fresh key appends the pair. -/
theorem dictSet_fresh {α β : Type} [DecidableEq α]
    (m : List (α × β)) (k : α) (v : β) (h : alookup m k = none) :
    dictSet m k v = m ++ [(k, v)] := by
  induction m with
  | nil => simp [dictSet]
  | cons p rest ih =>
    obtain ⟨k', w⟩ := p
    simp only [alookup] at h
    by_cases h0 : k' = k
    · rw [if_pos h0] at h
      exact absurd h (by simp)
    · rw [if_neg h0] at h
      simp only [dictSet, if_neg h0, List.cons_append, List.cons.injEq, true_and]
      exact ih h

/-- Membership in an association list with duplicate-free keys fixes the
lookup. -/
theorem alookup_of_mem_nodup {α β : Type} [DecidableEq α]
    {m : List (α × β)} {k : α} {v : β}
    (hmem : (k, v) ∈ m) (hnd : (m.map Prod.fst).Nodup) :
    alookup m k = some v := by
  induction m with
  | nil => simp at hmem
  | cons p rest ih =>
    obtain ⟨k', w⟩ := p
    simp only [List.map_cons, List.nodup_cons] at hnd
    rcases List.mem_cons.mp hmem with h | h
    · injection h with h1 h2
      subst h1
      subst h2
      simp [alookup]
    · have hk : k' ≠ k := by
        intro he
        subst he
        exact hnd.1 (List.mem_map.mpr ⟨(k', v), h, rfl⟩)
      simp [alookup, hk, ih h hnd.2]

/-- `List.find?` only depends on the predicate's values on the list. -/
theorem list_find_congr {α : Type} {p q : α → Bool} :
    ∀ (l : List α), (∀ a ∈ l, p a = q a) → l.find? p = l.find? q
  | [], _ => rfl
  | a :: rest, h => by
    have ha := h a (List.mem_cons_self a rest)
    simp only [List.find?_cons]
    rw [ha]
    cases q a with
    | true => rfl
    | false => exact list_find_congr rest (fun b hb => h b (List.mem_cons_of_mem a hb))

/-! ## Claim theorems -/

/-- C9: for a completion without an explicit numeric CONFIDENCE marker
the heuristic `_calculate_confidence` starts at 50, adds the fixed
bonuses for a date-like pattern (+10), a currency-like pattern (+15) and
response length over 2000 (+10), capped at 95; the result always lies
between 50 and 95 inclusive (the explicit-marker path belongs to
`EnhancedAIResponder._extract_confidence`, which the enhanced ask-AI
answerer never takes — `_calculate_confidence` is applied to every
completion). -/
theorem confidence_heuristic_in_range (text : List Char) :
    calculateConfidence text =
      min (50 + (if hasDatePattern text then 10 else 0) +
        (if hasCurrencyPattern text then 15 else 0) +
        (if 2000 < text.length then 10 else 0)) 95 ∧
    50 ≤ calculateConfidence text ∧ calculateConfidence text ≤ 95 := by
  unfold calculateConfidence
  cases hd : hasDatePattern text <;> cases hc : hasCurrencyPattern text <;>
    by_cases hl : 2000 < text.length <;> simp [hd, hc, hl]

/-- C8 (counterexample): the scenario question `What is the tender
deadline?` is classified `informational`, not `temporal`: the `what`
branch of `_classify_question_type` fires first, and no temporal keyword
(`when`, `schedule`, `timeline`) occurs in the question anyway. -/
theorem deadline_question_type_not_temporal :
    (analyzeQuestion "What is the tender deadline?").questionType =
      "informational" ∧
    (analyzeQuestion "What is the tender deadline?").questionType ≠
      "temporal" := by
  constructor
  · rfl
  · intro h
    exact absurd ((rfl :
      (analyzeQuestion "What is the tender deadline?").questionType =
        "informational").symm.trans h) (by decide)

/-- C8 (amended): the question `What is the tender deadline?` yields
`question_type = informational` (the `what` branch precedes the temporal
checks and no temporal keyword occurs in the question),
`relevant_categories = [commercial]` (via the keyword `tender`; no
category keyword matches `deadline`), complexity `simple`, and search
terms `[tender, deadline]` — in particular excluding `what`. -/
theorem deadline_question_analysis :
    analyzeQuestion "What is the tender deadline?" =
      { relevantCategories := ["commercial"]
        complexity := "simple"
        keyTerms := ["tender", "deadline"]
        questionType := "informational"
        requiresCrossReference := false } ∧
    "what" ∉ (analyzeQuestion "What is the tender deadline?").keyTerms := by
  constructor
  · rfl
  · decide

/-- C2 (counterexample): a document whose extracted text is `tiny`
(4 characters after stripping, below the 50-character threshold) is
excluded from the knowledge base — no category entry, no content entry,
no index entry, no success count — but the processing-failure counter is
NOT incremented: the `if text and len(text.strip()) > 50` guard has no
`else` branch, so the build reports 0 errors where the claim requires
1. -/
theorem short_text_document_not_counted_failed :
    (buildKnowledgeBase sampleProjectInfo [shortTextDoc]).toOption.map
      (fun kb =>
        (kb.summary.processingErrors, kb.summary.processedSuccessfully,
         kb.documentsByCategory.length, kb.documentContents.length,
         kb.searchIndex.length, kb.summary.totalDocuments)) =
      some (0, 0, 0, 0, 0, 1) := rfl

/-- C2 (amended): a document whose extracted text strips to at most 50
characters is skipped without any change to the knowledge base — it gets
no category entry, no content entry, no index entries, and the success
counter does not move; however the processing-failure counter does not
move either (it only counts documents whose handling raised an
exception). -/
theorem short_text_document_skipped (kb : KnowledgeBase) (d : DocInput)
    (t : List Char) (hout : d.outcome = .text t)
    (hshort : (pyStrip t).length ≤ 50) :
    processDocument kb d = kb := by
  unfold processDocument
  rw [hout]
  dsimp only
  rw [if_neg]
  intro hcond
  exact absurd hcond.2 (by omega)

/-- Witness for the amended C2 theorem at the concrete short document. -/
theorem short_text_document_skipped_witness :
    (pyStrip "tiny".data).length ≤ 50 ∧
    processDocument (initialKB sampleProjectInfo 1) shortTextDoc =
      initialKB sampleProjectInfo 1 :=
  ⟨by decide,
   short_text_document_skipped (initialKB sampleProjectInfo 1) shortTextDoc
     "tiny".data rfl (by decide)⟩

/-- C5: when RFI rows already exist for a tender analysis,
`generate_comprehensive_rfis` is a reported no-op — the stored RFIItem
set is returned unchanged together with `success = false` and the
`RFIs already generated` message (no exception); moreover generation
never deletes rows (it only ever appends), and only the explicit
`regenerate_rfis` deletes the analysis's prior set before generating
anew. -/
theorem generate_rfis_once_per_analysis :
    (∀ (db : List RFIRecord) (a : AnalysisInput)
        (claudeOutcome : Option (List RFIData)) (createdBy : Option String),
      0 < (db.filter (fun r => r.analysisId = a.analysisId)).length →
      generateComprehensiveRfis db a claudeOutcome createdBy =
        (db,
         { success := false
           message := "RFIs already generated for this project (" ++
             toString
               (db.filter (fun r => r.analysisId = a.analysisId)).length ++
             " items exist)"
           rfiCount := (db.filter (fun r => r.analysisId = a.analysisId)).length
           categories := [] })) ∧
    (∀ db a claudeOutcome createdBy, ∃ appended,
      (generateComprehensiveRfis db a claudeOutcome createdBy).1 =
        db ++ appended) ∧
    (∀ db a claudeOutcome createdBy,
      regenerateRfis db a claudeOutcome createdBy =
        generateComprehensiveRfis
          (db.filter (fun r => ¬ r.analysisId = a.analysisId))
          a claudeOutcome createdBy) := by
  refine ⟨?_, ?_, ?_⟩
  · intro db a claudeOutcome createdBy h
    unfold generateComprehensiveRfis
    rw [if_pos h]
  · intro db a claudeOutcome createdBy
    unfold generateComprehensiveRfis
    by_cases h : 0 < (db.filter (fun r => r.analysisId = a.analysisId)).length
    · rw [if_pos h]
      exact ⟨[], (List.append_nil db).symm⟩
    · rw [if_neg h]
      exact ⟨_, rfl⟩
  · intro db a claudeOutcome createdBy
    rfl

/-- Witness for C5: one stored row for the analysis makes the second
generation call a no-op with `success = false`. -/
theorem generate_rfis_once_per_analysis_witness :
    generateComprehensiveRfis [sampleRfiRecord] sampleAnalysis none none =
      ([sampleRfiRecord],
       { success := false
         message := "RFIs already generated for this project (1 items exist)"
         rfiCount := 1
         categories := [] }) :=
  (generate_rfis_once_per_analysis.1 [sampleRfiRecord] sampleAnalysis none none
    (by decide)).trans (by rfl)

/-- C6: a second `build_project_knowledge_base` call without
`force_refresh` (and, in the embedding, without cache expiry) returns
the very knowledge-base value cached by any preceding successful build,
performing zero folder listings and zero document downloads — whatever
the folder store would now return. -/
theorem build_returns_cached_without_refetch
    (cache : List (Nat × KnowledgeBase)) (pi : ProjectInfo)
    (docs docs2 : List DocInput) (forceRefresh : Bool) (kb : KnowledgeBase)
    (cache' : List (Nat × KnowledgeBase)) (listings downloads : Nat)
    (h : buildProjectKnowledgeBase cache pi docs forceRefresh =
      (.ok kb, cache', listings, downloads)) :
    buildProjectKnowledgeBase cache' pi docs2 false = (.ok kb, cache', 0, 0) := by
  have hfresh : ∀ c d, buildFresh c pi d = (.ok kb, cache', listings, downloads) →
      alookup cache' pi.id = some kb := by
    intro c d hf
    unfold buildFresh at hf
    cases hb : buildKnowledgeBase pi d <;> rw [hb] at hf
    · exact absurd (congrArg (fun q => q.1) hf) (by simp)
    · have h1 : Except.ok ‹KnowledgeBase› = Except.ok kb := congrArg (fun q => q.1) hf
      injection h1 with h1
      have h2 : dictSet c pi.id _ = cache' := congrArg (fun q => q.2.1) hf
      rw [← h2, h1]
      exact alookup_dictSet_self c pi.id kb
  have key : alookup cache' pi.id = some kb := by
    unfold buildProjectKnowledgeBase at h
    by_cases hforce : forceRefresh = false
    · rw [if_pos hforce] at h
      cases hl : alookup cache pi.id <;> rw [hl] at h
      · exact hfresh cache docs h
      · have h1 := congrArg (fun q => q.1) h
        have h2 := congrArg (fun q => q.2.1) h
        simp only at h1 h2
        injection h1 with h1
        rw [← h2, hl, h1]
    · rw [if_neg hforce] at h
      exact hfresh cache docs h
  unfold buildProjectKnowledgeBase
  rw [if_pos rfl, key]

/-- Witness for C6: after a build that cached the short-document
knowledge base, a forceless rebuild returns it with zero listings and
downloads, even against an empty folder listing. -/
theorem build_returns_cached_without_refetch_witness :
    buildProjectKnowledgeBase [(1, shortDocKB)] sampleProjectInfo [] false =
      (.ok shortDocKB, [(1, shortDocKB)], 0, 0) :=
  build_returns_cached_without_refetch [] sampleProjectInfo [shortTextDoc] []
    false shortDocKB [(1, shortDocKB)] 1 1 (by rfl)

/-- C7: document categorization is a pure function of
`(filename, content)` — immediate for the functional embedding, and
restated here as content-independence under a filename hit — in which
the filename-keyword pass always takes precedence (the first taxonomy
row in declaration order whose keyword occurs in the lowercased filename
wins, whatever the content); only when no row hits the filename does the
content fallback run, selecting the first row in declaration order with
at least two distinct keywords in the content, and `OTHER` when none
qualifies. -/
theorem categorize_document_two_tier :
    (∀ filename content p,
      aiCategories.find? (aiFilenameHit filename) = some p →
      categorizeDocumentAI filename content = p.1) ∧
    (∀ filename content content',
      (aiCategories.find? (aiFilenameHit filename)).isSome →
      categorizeDocumentAI filename content =
        categorizeDocumentAI filename content') ∧
    (∀ filename content,
      aiCategories.find? (aiFilenameHit filename) = none →
      categorizeDocumentAI filename content =
        match aiCategories.find? (aiContentDistinctHit content) with
        | some p => p.1
        | none => "OTHER") := by
  have hdedup : ∀ p ∈ aiCategories, p.2.dedup = p.2 := by decide
  refine ⟨?_, ?_, ?_⟩
  · intro filename content p hp
    simp only [categorizeDocumentAI]
    rw [show aiCategories.find?
        (fun p => p.2.any (fun k => pyInStr k ⟨pyLower filename.data⟩)) =
        some p from hp]
  · intro filename content content' hs
    obtain ⟨p, hp⟩ := Option.isSome_iff_exists.mp hs
    simp only [categorizeDocumentAI]
    rw [show aiCategories.find?
        (fun p => p.2.any (fun k => pyInStr k ⟨pyLower filename.data⟩)) =
        some p from hp]
  · intro filename content hnone
    simp only [categorizeDocumentAI]
    rw [show aiCategories.find?
        (fun p => p.2.any (fun k => pyInStr k ⟨pyLower filename.data⟩)) =
        none from hnone]
    have hcongr : aiCategories.find?
        (fun p => 2 ≤ p.2.countP (fun k => pyInStr k ⟨pyLower content.data⟩)) =
        aiCategories.find? (aiContentDistinctHit content) := by
      refine list_find_congr aiCategories (fun p hp => ?_)
      unfold aiContentDistinctHit
      rw [hdedup p hp]
    rw [hcongr]

/-- Witness for C7: a filename hit decides the category regardless of
content, and the content fallback with two distinct keyword hits decides
it otherwise. -/
theorem categorize_document_two_tier_witness :
    categorizeDocumentAI "Main Contract.pdf" "irrelevant content" =
      "CONTRACT" ∧
    categorizeDocumentAI "notes.txt" "the schedule and programme for works" =
      "SCHEDULE" :=
  ⟨categorize_document_two_tier.1 "Main Contract.pdf" "irrelevant content"
    ("CONTRACT", ["contract", "agreement", "terms", "conditions", "jct", "nec"])
    (by rfl),
   (categorize_document_two_tier.2.2 "notes.txt"
     "the schedule and programme for works" (by rfl)).trans (by rfl)⟩

/-- A successful `Except.bind` factors through a successful first
step. -/
theorem except_bind_ok {α β : Type} (x : Except Unit α) (f : α → Except Unit β)
    (b : β) (h : x.bind f = .ok b) : ∃ a, x = .ok a ∧ f a = .ok b := by
  cases x with
  | error e => simp [Except.bind] at h
  | ok a => exact ⟨a, rfl, h⟩

/-- Shape of any successful mapper run: the ten unconditional leading
fields, the three conditional segments, and the final unconditional
`key_opportunities` field. -/
theorem mapComprehensiveAnalysis_ok_shape (raw : List (String × PyVal))
    (p : MapperProject) (m : List (String × PyVal))
    (h : mapComprehensiveAnalysis raw p = .ok m) :
    ∃ ov sc ts ra tl bu ci ctSeg,
      contractTypeSeg raw = .ok ctSeg ∧
      m = [("project_overview", ov), ("scope_of_work", sc),
           ("key_requirements", keyRequirementsField raw),
           ("technical_specifications", ts),
           ("risk_assessment", ra),
           ("risk_level", .pystr (riskLevelField raw)),
           ("timeline_analysis", tl),
           ("budget_estimates", bu),
           ("contract_information", ci),
           ("analysis_confidence", confidenceField raw)] ++
          estimatedValueSeg raw ++ ctSeg ++ durationSeg raw ++
          [("key_opportunities", keyOppsField raw)] := by
  unfold mapComprehensiveAnalysis at h
  obtain ⟨ov, h1, h⟩ := except_bind_ok _ _ _ h
  obtain ⟨sc, h2, h⟩ := except_bind_ok _ _ _ h
  obtain ⟨ts, h3, h⟩ := except_bind_ok _ _ _ h
  obtain ⟨ra, h4, h⟩ := except_bind_ok _ _ _ h
  obtain ⟨tl, h5, h⟩ := except_bind_ok _ _ _ h
  obtain ⟨bu, h6, h⟩ := except_bind_ok _ _ _ h
  obtain ⟨ci, h7, h⟩ := except_bind_ok _ _ _ h
  obtain ⟨ctSeg, h8, h⟩ := except_bind_ok _ _ _ h
  injection h with h
  exact ⟨ov, sc, ts, ra, tl, bu, ci, ctSeg, h8, h.symm⟩

/-- C1 (counterexample): on the empty raw analysis dictionary the mapper
returns only 11 fields — `estimated_project_value`, `contract_type` and
`project_duration_weeks` are left unset, so the mapping does not assign
a value to every field of the TenderAnalysis schema. -/
theorem mapper_empty_input_leaves_fields_unset :
    (mapComprehensiveAnalysis [] sampleMapperProject).toOption.map
      (fun m =>
        ((alookup m "estimated_project_value").isNone,
         (alookup m "contract_type").isNone,
         (alookup m "project_duration_weeks").isNone,
         m.length)) = some (true, true, true, 11) := rfl

/-- C1 (amended): whenever the mapper returns a result (it raises on
ill-typed `contract_information` values), the result assigns a value to
the eleven unconditional fields of the schema —
`estimated_project_value`, `contract_type` and `project_duration_weeks`
are however only set when their source keys hold usable values, so they
may be absent. -/
theorem mapper_core_fields_always_set (raw : List (String × PyVal))
    (p : MapperProject) (m : List (String × PyVal))
    (h : mapComprehensiveAnalysis raw p = .ok m) :
    "project_overview" ∈ m.map Prod.fst ∧
    "scope_of_work" ∈ m.map Prod.fst ∧
    "key_requirements" ∈ m.map Prod.fst ∧
    "technical_specifications" ∈ m.map Prod.fst ∧
    "risk_assessment" ∈ m.map Prod.fst ∧
    "risk_level" ∈ m.map Prod.fst ∧
    "timeline_analysis" ∈ m.map Prod.fst ∧
    "budget_estimates" ∈ m.map Prod.fst ∧
    "contract_information" ∈ m.map Prod.fst ∧
    "analysis_confidence" ∈ m.map Prod.fst ∧
    "key_opportunities" ∈ m.map Prod.fst := by
  obtain ⟨ov, sc, ts, ra, tl, bu, ci, ctSeg, hct, rfl⟩ :=
    mapComprehensiveAnalysis_ok_shape raw p m h
  refine ⟨?_, ?_, ?_, ?_, ?_, ?_, ?_, ?_, ?_, ?_, ?_⟩ <;> simp

/-- Witness for the amended C1 theorem at the empty dictionary. -/
theorem mapper_core_fields_always_set_witness :
    "project_overview" ∈ mappedEmptySample.map Prod.fst ∧
    "risk_level" ∈ mappedEmptySample.map Prod.fst :=
  ⟨(mapper_core_fields_always_set [] sampleMapperProject mappedEmptySample
      (by rfl)).1,
   (mapper_core_fields_always_set [] sampleMapperProject mappedEmptySample
      (by rfl)).2.2.2.2.2.1⟩

/-- C10: the `risk_level` the mapper produces is always one of `LOW`,
`MEDIUM`, `HIGH` — never `CRITICAL`; for a string input the result
follows the fixed-order substring cascade LOW, then HIGH, then CRITICAL
(the CRITICAL branch coercing to HIGH) on the uppercased text; any
non-string value yields `MEDIUM`; and every successful mapper run stores
exactly this value under `risk_level`. -/
theorem risk_level_cascade_valid :
    (∀ raw, riskLevelField raw = "LOW" ∨ riskLevelField raw = "MEDIUM" ∨
      riskLevelField raw = "HIGH") ∧
    (∀ raw s, pyGetD raw "risk_level" (.pystr "MEDIUM") = .pystr s →
      riskLevelField raw = riskCascadeSpec (pyUpper s)) ∧
    (∀ raw v, pyGetD raw "risk_level" (.pystr "MEDIUM") = v →
      pyIsStr v = false → riskLevelField raw = "MEDIUM") ∧
    (∀ raw p m, mapComprehensiveAnalysis raw p = .ok m →
      alookup m "risk_level" = some (.pystr (riskLevelField raw))) := by
  refine ⟨?_, ?_, ?_, ?_⟩
  · intro raw
    unfold riskLevelField
    cases pyGetD raw "risk_level" (.pystr "MEDIUM") <;> try simp
    split_ifs <;> simp_all
  · intro raw s hs
    unfold riskLevelField
    rw [hs]
    rfl
  · intro raw v hv hstr
    unfold riskLevelField
    rw [hv]
    cases v <;> first
      | rfl
      | simp [pyIsStr] at hstr
  · intro raw p m h
    obtain ⟨ov, sc, ts, ra, tl, bu, ci, ctSeg, hct, rfl⟩ :=
      mapComprehensiveAnalysis_ok_shape raw p m h
    simp [alookup]

/-- Witness for C10: a raw `risk_level` of `CRITICAL` is coerced to
`HIGH`. -/
theorem risk_level_cascade_valid_witness :
    riskLevelField [("risk_level", PyVal.pystr "CRITICAL")] =
      riskCascadeSpec (pyUpper "CRITICAL") ∧
    riskCascadeSpec (pyUpper "CRITICAL") = "HIGH" :=
  ⟨risk_level_cascade_valid.2.1 [("risk_level", PyVal.pystr "CRITICAL")]
    "CRITICAL" rfl, rfl⟩

/-- Membership through the set-union accumulator step. -/
theorem setUpdate_mem : ∀ (l acc : List String) (d : String),
    d ∈ setUpdate acc l ↔ d ∈ acc ∨ d ∈ l
  | [], acc, d => by simp [setUpdate]
  | a :: rest, acc, d => by
    rw [show setUpdate acc (a :: rest) =
        setUpdate (if a ∈ acc then acc else acc ++ [a]) rest from rfl]
    rw [setUpdate_mem rest _ d]
    by_cases h : a ∈ acc
    · rw [if_pos h]
      constructor
      · rintro (hd | hd)
        · exact Or.inl hd
        · exact Or.inr (List.mem_cons_of_mem a hd)
      · rintro (hd | hd)
        · exact Or.inl hd
        · rcases List.mem_cons.mp hd with hd | hd
          · exact Or.inl (hd ▸ h)
          · exact Or.inr hd
    · rw [if_neg h]
      simp [List.mem_append, or_assoc]

/-- The set-union accumulator step keeps the list duplicate-free. -/
theorem setUpdate_nodup : ∀ (l acc : List String),
    acc.Nodup → (setUpdate acc l).Nodup
  | [], acc, h => h
  | a :: rest, acc, h => by
    rw [show setUpdate acc (a :: rest) =
        setUpdate (if a ∈ acc then acc else acc ++ [a]) rest from rfl]
    refine setUpdate_nodup rest _ ?_
    by_cases ha : a ∈ acc
    · rwa [if_pos ha]
    · rw [if_neg ha]
      refine List.Nodup.append h (List.nodup_singleton a) ?_
      intro x hx hxa
      rw [List.mem_singleton] at hxa
      exact ha (hxa ▸ hx)

/-- Membership in the search fold: a document appears when some term's
bucket holds it. -/
theorem searchFold_mem (kb : KnowledgeBase) :
    ∀ (terms : List String) (acc : List String) (d : String),
    d ∈ terms.foldl
      (fun acc term =>
        match alookup kb.searchIndex (pyLower term.data) with
        | some l => setUpdate acc l
        | none => acc) acc ↔
    d ∈ acc ∨ ∃ t ∈ terms, ∃ l,
      alookup kb.searchIndex (pyLower t.data) = some l ∧ d ∈ l
  | [], acc, d => by simp
  | t :: rest, acc, d => by
    rw [List.foldl_cons, searchFold_mem kb rest _ d]
    cases hl : alookup kb.searchIndex (pyLower t.data) with
    | none =>
      simp only [List.mem_cons]
      constructor
      · rintro (hd | ⟨t', ht', hex⟩)
        · exact Or.inl hd
        · exact Or.inr ⟨t', Or.inr ht', hex⟩
      · rintro (hd | ⟨t', ht', l, hll, hdl⟩)
        · exact Or.inl hd
        · rcases ht' with rfl | ht'
          · rw [hl] at hll
            cases hll
          · exact Or.inr ⟨t', ht', l, hll, hdl⟩
    | some l =>
      rw [setUpdate_mem]
      simp only [List.mem_cons]
      constructor
      · rintro ((hd | hd) | ⟨t', ht', hex⟩)
        · exact Or.inl hd
        · exact Or.inr ⟨t, Or.inl rfl, l, hl, hd⟩
        · exact Or.inr ⟨t', Or.inr ht', hex⟩
      · rintro (hd | ⟨t', ht', l', hll, hdl⟩)
        · exact Or.inl (Or.inl hd)
        · rcases ht' with rfl | ht'
          · rw [hl] at hll
            injection hll with hll
            exact Or.inl (Or.inr (hll ▸ hdl))
          · exact Or.inr ⟨t', ht', l', hll, hdl⟩

/-- C4 (counterexample): `search_knowledge_base` is not ordered by match
density.  Against `searchRankKB` (`DocB` matches both query terms,
`DocA` one) the union comes out in bucket order while the claimed
density ranking puts `DocB` first; and swapping the densities
(`searchRankKB2`) leaves the output identical even though the claimed
ranking differs — the code accumulates a Python set and never counts
matches, so no density ordering can hold for both inputs under any
iteration order of the set. -/
theorem search_not_ranked_by_density :
    searchKnowledgeBase searchRankKB ["cost", "budget"] ≠
      rankedByMatchDensity searchRankKB ["cost", "budget"] ∧
    searchKnowledgeBase searchRankKB ["cost", "budget"] =
      searchKnowledgeBase searchRankKB2 ["cost", "budget"] ∧
    rankedByMatchDensity searchRankKB ["cost", "budget"] ≠
      rankedByMatchDensity searchRankKB2 ["cost", "budget"] := by
  refine ⟨?_, rfl, ?_⟩ <;> decide

/-- C4 (amended): for every knowledge base and query-term list,
`search_knowledge_base` returns the union of the documents matching any
term — exactly the documents found in the index bucket of some
lowercased query term — as a duplicate-free collection in no specified
order (CPython iterates the underlying `set` in an unspecified order;
the embedding fixes first-insertion order). -/
theorem search_returns_union_unranked (kb : KnowledgeBase)
    (terms : List String) :
    (∀ d, d ∈ searchKnowledgeBase kb terms ↔
      ∃ t ∈ terms, ∃ l,
        alookup kb.searchIndex (pyLower t.data) = some l ∧ d ∈ l) ∧
    (searchKnowledgeBase kb terms).Nodup := by
  constructor
  · intro d
    unfold searchKnowledgeBase
    rw [searchFold_mem]
    simp
  · unfold searchKnowledgeBase
    generalize hacc : ([] : List String) = acc
    have hnd : acc.Nodup := hacc ▸ List.nodup_nil
    clear hacc
    induction terms generalizing acc with
    | nil => exact hnd
    | cons t rest ih =>
      rw [List.foldl_cons]
      cases hl : alookup kb.searchIndex (pyLower t.data) with
      | none => exact ih acc hnd
      | some l => exact ih _ (setUpdate_nodup l acc hnd)

/-- An `Option` of `some` unwraps under the existential used by
`entryMem`. -/
theorem exists_some_mem {X : List String} {d : String} :
    (∃ l, (some X : Option (List String)) = some l ∧ d ∈ l) ↔ d ∈ X := by
  constructor
  · rintro ⟨l, hl, hd⟩
    injection hl with hl
    exact hl ▸ hd
  · intro hd
    exact ⟨X, rfl, hd⟩

/-- Bucket of the registered word after `indexAdd`. -/
theorem alookup_indexAdd_self :
    ∀ (idx : List (List Char × List String)) (w : List Char) (n : String),
    alookup (indexAdd idx w n) w =
      some (match alookup idx w with
            | some l => if n ∈ l then l else l ++ [n]
            | none => [n])
  | [], w, n => by simp [indexAdd, alookup]
  | (k, l) :: rest, w, n => by
    by_cases h : k = w
    · subst h
      simp [indexAdd, alookup]
    · rw [show indexAdd ((k, l) :: rest) w n = (k, l) :: indexAdd rest w n from by
        simp [indexAdd, h]]
      rw [show alookup ((k, l) :: indexAdd rest w n) w =
        alookup (indexAdd rest w n) w from by simp [alookup, h]]
      rw [show alookup ((k, l) :: rest) w = alookup rest w from by
        simp [alookup, h]]
      exact alookup_indexAdd_self rest w n

/-- Other words' buckets are untouched by `indexAdd`. -/
theorem alookup_indexAdd_ne :
    ∀ (idx : List (List Char × List String)) (w : List Char) (n : String)
      (t : List Char), t ≠ w →
    alookup (indexAdd idx w n) t = alookup idx t
  | [], w, n, t, h => by
    simp only [indexAdd, alookup]
    rw [if_neg (fun hh : w = t => h hh.symm)]
  | (k, l) :: rest, w, n, t, h => by
    by_cases hk : k = w
    · subst hk
      simp only [indexAdd, if_pos rfl, alookup]
      rw [if_neg (fun hh : k = t => h hh.symm), if_neg (fun hh : k = t => h hh.symm)]
    · simp only [indexAdd, if_neg hk, alookup]
      by_cases ht : k = t
      · rw [if_pos ht, if_pos ht]
      · rw [if_neg ht, if_neg ht]
        exact alookup_indexAdd_ne rest w n t h

/-- Index membership after one `indexAdd`. -/
theorem entryMem_indexAdd (idx : List (List Char × List String))
    (w : List Char) (n : String) (t : List Char) (d : String) :
    entryMem (indexAdd idx w n) t d ↔ entryMem idx t d ∨ (t = w ∧ d = n) := by
  by_cases h : t = w
  · subst h
    unfold entryMem
    rw [alookup_indexAdd_self]
    cases hl : alookup idx t with
    | none =>
      dsimp only
      simp only [exists_some_mem]
      simp
    | some l =>
      dsimp only
      simp only [exists_some_mem]
      by_cases hd : n ∈ l
      · rw [if_pos hd]
        constructor
        · intro h'
          exact Or.inl h'
        · rintro (h' | ⟨-, rfl⟩)
          · exact h'
          · exact hd
      · rw [if_neg hd]
        simp [List.mem_append]
  · unfold entryMem
    rw [alookup_indexAdd_ne idx w n t h]
    simp [h]

/-- Keys after `indexAdd` come from the old index or are the new word. -/
theorem mem_keys_indexAdd :
    ∀ (idx : List (List Char × List String)) (w : List Char) (n : String)
      (k : List Char),
    k ∈ (indexAdd idx w n).map Prod.fst → k ∈ idx.map Prod.fst ∨ k = w
  | [], w, n, k => by
    intro h
    simp [indexAdd] at h
    exact Or.inr h
  | (k0, l) :: rest, w, n, k => by
    intro h
    by_cases hk : k0 = w
    · subst hk
      rw [show indexAdd ((k0, l) :: rest) k0 n =
          (k0, if n ∈ l then l else l ++ [n]) :: rest from by simp [indexAdd]] at h
      simp only [List.map_cons, List.mem_cons] at h
      simp only [List.map_cons, List.mem_cons]
      rcases h with h | h
      · exact Or.inl (Or.inl h)
      · exact Or.inl (Or.inr h)
    · rw [show indexAdd ((k0, l) :: rest) w n = (k0, l) :: indexAdd rest w n
          from by simp [indexAdd, hk]] at h
      simp only [List.map_cons, List.mem_cons] at h
      simp only [List.map_cons, List.mem_cons]
      rcases h with h | h
      · exact Or.inl (Or.inl h)
      · rcases mem_keys_indexAdd rest w n k h with h' | h'
        · exact Or.inl (Or.inr h')
        · exact Or.inr h'

/-- `indexAdd` keeps the key list duplicate-free. -/
theorem nodup_keys_indexAdd :
    ∀ (idx : List (List Char × List String)) (w : List Char) (n : String),
    (idx.map Prod.fst).Nodup → ((indexAdd idx w n).map Prod.fst).Nodup
  | [], w, n, _ => by simp [indexAdd]
  | (k0, l) :: rest, w, n, h => by
    simp only [List.map_cons, List.nodup_cons] at h
    by_cases hk : k0 = w
    · subst hk
      rw [show indexAdd ((k0, l) :: rest) k0 n =
          (k0, if n ∈ l then l else l ++ [n]) :: rest from by simp [indexAdd]]
      simp only [List.map_cons, List.nodup_cons]
      exact h
    · rw [show indexAdd ((k0, l) :: rest) w n = (k0, l) :: indexAdd rest w n
          from by simp [indexAdd, hk]]
      simp only [List.map_cons, List.nodup_cons]
      refine ⟨?_, nodup_keys_indexAdd rest w n h.2⟩
      intro hmem
      rcases mem_keys_indexAdd rest w n k0 hmem with hm | hm
      · exact h.1 hm
      · exact hk hm

/-- Index membership after registering all long-enough words of a word
list for one document. -/
theorem entryMem_addWords (n : String) :
    ∀ (ws : List (List Char)) (idx : List (List Char × List String))
      (t : List Char) (d : String),
    entryMem
      (ws.foldl (fun idx w => if 3 < w.length then indexAdd idx w n else idx)
        idx) t d ↔
      entryMem idx t d ∨ (d = n ∧ t ∈ ws ∧ 3 < t.length)
  | [], idx, t, d => by simp
  | w :: rest, idx, t, d => by
    rw [List.foldl_cons, entryMem_addWords n rest _ t d]
    by_cases hw : 3 < w.length
    · rw [if_pos hw, entryMem_indexAdd]
      constructor
      · rintro ((he | ⟨rfl, rfl⟩) | ⟨rfl, ht, hlen⟩)
        · exact Or.inl he
        · exact Or.inr ⟨rfl, List.mem_cons_self _ _, hw⟩
        · exact Or.inr ⟨rfl, List.mem_cons_of_mem w ht, hlen⟩
      · rintro (he | ⟨rfl, ht, hlen⟩)
        · exact Or.inl (Or.inl he)
        · rcases List.mem_cons.mp ht with rfl | ht
          · exact Or.inl (Or.inr ⟨rfl, rfl⟩)
          · exact Or.inr ⟨rfl, ht, hlen⟩
    · rw [if_neg hw]
      constructor
      · rintro (he | ⟨rfl, ht, hlen⟩)
        · exact Or.inl he
        · exact Or.inr ⟨rfl, List.mem_cons_of_mem w ht, hlen⟩
      · rintro (he | ⟨rfl, ht, hlen⟩)
        · exact Or.inl he
        · rcases List.mem_cons.mp ht with rfl | ht
          · exact absurd hlen hw
          · exact Or.inr ⟨rfl, ht, hlen⟩

/-- Keys after registering a word list come from the old index or are
long-enough words of the list. -/
theorem keys_addWords_sub (n : String) :
    ∀ (ws : List (List Char)) (idx : List (List Char × List String))
      (k : List Char),
    k ∈ ((ws.foldl (fun idx w => if 3 < w.length then indexAdd idx w n else idx)
        idx).map Prod.fst) →
    k ∈ idx.map Prod.fst ∨ (k ∈ ws ∧ 3 < k.length)
  | [], _, _ => fun h => Or.inl h
  | w :: rest, idx, k => by
    intro h
    rw [List.foldl_cons] at h
    rcases keys_addWords_sub n rest _ k h with hm | hm
    · by_cases hw : 3 < w.length
      · rw [if_pos hw] at hm
        rcases mem_keys_indexAdd idx w n k hm with hm' | rfl
        · exact Or.inl hm'
        · exact Or.inr ⟨List.mem_cons_self _ _, hw⟩
      · rw [if_neg hw] at hm
        exact Or.inl hm
    · exact Or.inr ⟨List.mem_cons_of_mem w hm.1, hm.2⟩

/-- Registering a word list keeps the key list duplicate-free. -/
theorem nodup_keys_addWords (n : String) :
    ∀ (ws : List (List Char)) (idx : List (List Char × List String)),
    (idx.map Prod.fst).Nodup →
    (((ws.foldl (fun idx w => if 3 < w.length then indexAdd idx w n else idx)
        idx).map Prod.fst).Nodup)
  | [], _, h => h
  | w :: rest, idx, h => by
    rw [List.foldl_cons]
    refine nodup_keys_addWords n rest _ ?_
    by_cases hw : 3 < w.length
    · rw [if_pos hw]
      exact nodup_keys_indexAdd idx w n h
    · rw [if_neg hw]
      exact h

/-- Dropping a middle element preserves duplicate-freedom. -/
theorem nodup_append_cons_drop {α : Type} {l1 l2 : List α} {x : α}
    (h : (l1 ++ x :: l2).Nodup) : (l1 ++ l2).Nodup := by
  rw [List.nodup_append] at h ⊢
  obtain ⟨h1, h2, h3⟩ := h
  exact ⟨h1, (List.nodup_cons.mp h2).2,
    fun a ha hb => h3 ha (List.mem_cons_of_mem x hb)⟩

/-- Invariant of the document-processing loop: with duplicate-free
document names, the inverted index's keys are duplicate-free, every key
is a lowercase token of length above 3, and a document sits in a token's
bucket exactly when its stored extracted text, lowercased and split on
whitespace, contains the token. -/
theorem processDocuments_inv :
    ∀ (docs : List DocInput) (kb : KnowledgeBase),
    (kb.documentContents.map Prod.fst ++ docs.map DocInput.name).Nodup →
    (kb.searchIndex.map Prod.fst).Nodup →
    (∀ k ∈ kb.searchIndex.map Prod.fst, 3 < k.length ∧ pyLower k = k) →
    (∀ t d, entryMem kb.searchIndex t d ↔
      (3 < t.length ∧ ∃ text, (d, text) ∈ kb.documentContents ∧
        t ∈ pySplitWs (pyLower text))) →
    (((docs.foldl processDocument kb).searchIndex.map Prod.fst).Nodup ∧
     (∀ k ∈ (docs.foldl processDocument kb).searchIndex.map Prod.fst,
        3 < k.length ∧ pyLower k = k) ∧
     (∀ t d, entryMem (docs.foldl processDocument kb).searchIndex t d ↔
       (3 < t.length ∧ ∃ text,
         (d, text) ∈ (docs.foldl processDocument kb).documentContents ∧
         t ∈ pySplitWs (pyLower text))))
  | [], kb, _, hidx, hkeys, hentry => ⟨hidx, hkeys, hentry⟩
  | d :: rest, kb, hnd, hidx, hkeys, hentry => by
    rw [List.foldl_cons]
    obtain ⟨dn, dm, dp, dout⟩ := d
    have hnd' := nodup_append_cons_drop hnd
    cases dout with
    | err =>
      exact processDocuments_inv rest _ hnd' hidx hkeys hentry
    | noContent =>
      exact processDocuments_inv rest _ hnd' hidx hkeys hentry
    | text t =>
      by_cases hacc : t ≠ [] ∧ 50 < (pyStrip t).length
      · have hname : dn ∉ kb.documentContents.map Prod.fst := by
          intro hmem
          exact (List.nodup_append.mp hnd).2.2 hmem (List.mem_cons_self _ _)
        have hfresh : alookup kb.documentContents dn = none :=
          (alookup_eq_none_iff _ _).mpr hname
        have hcontents :
            (processDocument kb ⟨dn, dm, dp, .text t⟩).documentContents =
              kb.documentContents ++ [(dn, t)] := by
          unfold processDocument
          dsimp only
          rw [if_pos hacc]
          exact dictSet_fresh _ _ _ hfresh
        have hindex :
            (processDocument kb ⟨dn, dm, dp, .text t⟩).searchIndex =
              addToSearchIndex kb.searchIndex dn t := by
          unfold processDocument
          dsimp only
          rw [if_pos hacc]
        refine processDocuments_inv rest _ ?_ ?_ ?_ ?_
        · rw [hcontents]
          simp only [List.map_append]
          rw [List.append_assoc]
          exact hnd
        · rw [hindex]
          exact nodup_keys_addWords dn _ _ hidx
        · intro k hk
          rw [hindex] at hk
          rcases keys_addWords_sub dn _ _ k hk with hm | ⟨hw, hlen⟩
          · exact hkeys k hm
          · exact ⟨hlen, pyLower_fix_of_word hw⟩
        · intro t0 d0
          rw [hindex, hcontents]
          unfold addToSearchIndex
          rw [entryMem_addWords, hentry t0 d0]
          constructor
          · rintro (⟨hlen, text, hmem, hw⟩ | ⟨rfl, hw, hlen⟩)
            · exact ⟨hlen, text, List.mem_append_left _ hmem, hw⟩
            · exact ⟨hlen, t, List.mem_append_right _ (by simp), hw⟩
          · rintro ⟨hlen, text, hmem, hw⟩
            rcases List.mem_append.mp hmem with hm | hm
            · exact Or.inl ⟨hlen, text, hm, hw⟩
            · have hpair : (d0, text) = (dn, t) := by simpa using hm
              injection hpair with h1 h2
              subst h1
              subst h2
              exact Or.inr ⟨rfl, hw, hlen⟩
      · have heq : processDocument kb ⟨dn, dm, dp, .text t⟩ = kb := by
          unfold processDocument
          dsimp only
          rw [if_neg hacc]
        rw [heq]
        exact processDocuments_inv rest _ hnd' hidx hkeys hentry

/-- C3 (counterexample): `testing` is an indexed token of the knowledge
base built from `substrDocs`, and `DocB`'s extracted text contains
`testing` (inside the word `testingmore`), yet `search([testing])`
returns only `DocA` — so search does not return the set of documents
whose extracted text contains the token in the substring sense. -/
theorem search_not_substring_exact :
    (alookup substrKB.searchIndex "testing".data).isSome = true ∧
    (alookup substrKB.documentContents "DocB").isSome = true ∧
    listContainsSeq "testing".data substrTextB = true ∧
    searchKnowledgeBase substrKB ["testing"] = ["DocA"] := by
  exact ⟨rfl, rfl, rfl, rfl⟩

/-- C3 (amended): for every knowledge base the builder produces from a
listing with pairwise distinct document names, the inverted index holds
no token of length ≤ 3, and for every indexed token `t`,
`search_knowledge_base(kb, [t])` returns exactly the set of accepted
documents whose lowercased extracted text, split on whitespace, contains
`t` as a token (token containment, not substring containment). -/
theorem search_index_tokens_exact (pi : ProjectInfo) (docs : List DocInput)
    (kb : KnowledgeBase) (hbuild : buildKnowledgeBase pi docs = .ok kb)
    (hnames : (docs.map DocInput.name).Nodup) :
    (∀ p ∈ kb.searchIndex, 3 < p.1.length) ∧
    (∀ t l, (t, l) ∈ kb.searchIndex → ∀ d,
      d ∈ searchKnowledgeBase kb [⟨t⟩] ↔
        ∃ text, (d, text) ∈ kb.documentContents ∧
          t ∈ pySplitWs (pyLower text)) := by
  unfold buildKnowledgeBase at hbuild
  by_cases hd : docs.isEmpty
  · rw [if_pos hd] at hbuild
    cases hbuild
  · rw [if_neg hd] at hbuild
    injection hbuild with hkb
    have hnd50 : (((initialKB pi docs.length).documentContents.map Prod.fst) ++
        (docs.take 50).map DocInput.name).Nodup := by
      simp only [initialKB, List.map_nil, List.nil_append]
      rw [List.map_take]
      exact hnames.sublist (List.take_sublist 50 _)
    obtain ⟨hndIdx, hkeys, hentry⟩ :=
      processDocuments_inv (docs.take 50) (initialKB pi docs.length) hnd50
        (by simp [initialKB])
        (by intro k hk; simp [initialKB] at hk)
        (by intro t d; simp [initialKB, entryMem, alookup])
    subst hkb
    constructor
    · intro p hp
      exact (hkeys p.1 (List.mem_map.mpr ⟨p, hp, rfl⟩)).1
    · intro t l hmem d
      have hk := hkeys t (List.mem_map.mpr ⟨(t, l), hmem, rfl⟩)
      have hlook := alookup_of_mem_nodup hmem hndIdx
      unfold searchKnowledgeBase
      rw [List.foldl_cons, List.foldl_nil]
      rw [show pyLower (String.data ⟨t⟩) = t from hk.2]
      rw [hlook]
      rw [setUpdate_mem]
      have hiff := hentry t d
      unfold entryMem at hiff
      rw [hlook] at hiff
      rw [exists_some_mem] at hiff
      constructor
      · rintro (hfalse | hdl)
        · cases hfalse
        · exact (hiff.mp hdl).2
      · intro hex
        exact Or.inr (hiff.mpr ⟨hk.1, hex⟩)

/-- Witness for the amended C3 theorem: in the knowledge base built from
the two distinct-named substring-example documents, `testing` is an
indexed token of length above 3 and searching for it returns `DocA`,
whose text contains the token `testing`. -/
theorem search_index_tokens_exact_witness :
    3 < "testing".data.length ∧
    "DocA" ∈ searchKnowledgeBase substrKB [⟨"testing".data⟩] := by
  have h := search_index_tokens_exact sampleProjectInfo substrDocs substrKB
    (by rfl) (by decide)
  constructor
  · exact h.1 ("testing".data, ["DocA"]) (by decide)
  · exact (h.2 "testing".data ["DocA"] (by decide) "DocA").mpr
      ⟨substrTextA, by decide, by decide⟩
